import Mathlib

/-!
Shallow embedding of the pwdsphinx oracle server (`src/pwdsphinx/oracle.py`)
and proofs about its per-account state machine, rate limiter and
challenge verification.

Modelling conventions:
* Byte strings are `List Nat` (each entry a byte value).
* The per-account directory is a record with one `Option Bytes` field per
  file name the server ever uses inside an account directory.
* Socket reads become explicit parameters (the bytes the client sent);
  socket sends are collected in a `sent : List Bytes` trace.
* `fail(s)` (which sends `\x00\x04fail`, closes the socket and exits) is
  the outcome `Outcome.failed`, with the marker appended to the trace.
  An uncaught Python exception (e.g. the `ValueError` raised by
  `load_blob` on a wrong-sized file) is the outcome `Outcome.exn`; it
  tears the connection down without sending anything.
* External cryptographic primitives (pyoprf evaluation, Ed25519
  signature verification, the keyed generic hash, equihash) are opaque
  to the server and are passed in as function parameters.
* Timestamps are modelled at whole-second granularity as integers
  (the server persists `int(now)`).
-/

namespace PwdSphinx

/-- Byte strings: lists of byte values. -/
abbrev Bytes := List Nat

/-- `b'\x00\x04fail'` — the fatal failure wire marker sent by `fail`. -/
def failMarker : Bytes := [0, 4, 102, 97, 105, 108]

/-- `b'ok'` — the success marker. -/
def okMsg : Bytes := [111, 107]

/-- `b'\x00\x04auth'` — sent after a successful auth handshake. -/
def authMarker : Bytes := [0, 4, 97, 117, 116, 104]

/-- Modelled from the spec: the READ opcode byte comes from
`pwdsphinx.consts`, which is not part of the source tree; the spec says
opcode values are shared one-byte constants.  Its concrete value does
not affect any claim. -/
def READop : Bytes := [51]

/-- The GET opcode byte (`0x66`, from the comment over `get` in the
source). -/
def GETop : Bytes := [102]

/-- `pop(obj, cnt)` from the source: split a byte string at `cnt`. -/
def pop (b : Bytes) (cnt : Nat) : Bytes × Bytes := (b.take cnt, b.drop cnt)

/-- `verify_blob(msg, pk)`: strip the trailing 64-byte signature, check it
over the rest under `pk` (via the external `sigOk`), return the message
body on success, `none` for the `ValueError` path. -/
def verify_blob (sigOk : Bytes → Bytes → Bytes → Bool) (msg pk : Bytes) :
    Option Bytes :=
  let body := msg.take (msg.length - 64)
  let sig := msg.drop (msg.length - 64)
  if sigOk sig body pk then some body else none

/-- The contents of one account directory `<datadir>/<hex id>/`: one
optional byte string per file name `oracle.py` ever uses there. -/
structure AccountDir where
  key : Option Bytes
  pub : Option Bytes
  rules : Option Bytes
  keyNew : Option Bytes
  pubNew : Option Bytes
  rulesNew : Option Bytes
  keyOld : Option Bytes
  pubOld : Option Bytes
  rulesOld : Option Bytes
  difficulty : Option Bytes
  blob : Option Bytes
  deriving DecidableEq, Repr

/-- A directory holding no files (just created by `os.mkdir`). -/
def emptyDir : AccountDir :=
  ⟨none, none, none, none, none, none, none, none, none, none, none⟩

/-- A file in a possibly absent directory. -/
def lookupFile (st : Option AccountDir) (sel : AccountDir → Option Bytes) :
    Option Bytes :=
  match st with
  | none => none
  | some d => sel d

/-- Result of `load_blob`: the file may be missing (`None` in Python),
fail its size check (`ValueError`), or yield its contents. -/
inductive Loaded where
  | missing
  | corrupted
  | blob (v : Bytes)
  deriving DecidableEq, Repr

/-- `load_blob(path, fname, size)`: `none` result if the file does not
exist; raise (`corrupted`) if a size is given and the contents have a
different length; otherwise return the contents. -/
def load_blob (st : Option AccountDir) (sel : AccountDir → Option Bytes)
    (size : Option Nat) : Loaded :=
  match lookupFile st sel with
  | none => .missing
  | some v =>
    match size with
    | none => .blob v
    | some n => if v.length = n then .blob v else .corrupted

/-- How a connection handler terminates: normal completion, the `fail`
exit (marker sent), or an uncaught exception (nothing sent). -/
inductive Outcome where
  | ok
  | failed
  | exn
  deriving DecidableEq, Repr

/-- Result of an operation on one account directory. -/
structure OpRes where
  out : Outcome
  st : Option AccountDir
  sent : List Bytes
  deriving DecidableEq, Repr

/-- The `Difficulties` ladder: `(n, k, timeout)` entries. -/
def Difficulties : List (Nat × Nat × Nat) :=
  [(60, 4, 1), (65, 4, 2), (70, 4, 4), (75, 4, 9), (80, 4, 16),
   (85, 4, 32), (90, 4, 80), (95, 4, 160), (100, 4, 320), (105, 4, 640),
   (110, 4, 1280), (115, 4, 2560), (120, 4, 5120)]

/-- `RL_Timeouts[(n,k)]`: the timeout of the ladder entry with these
parameters (`none` models the `KeyError` on an unknown pair). -/
def RL_Timeouts (n k : Nat) : Option Nat :=
  (Difficulties.find? (fun e => e.1 = n && e.2.1 = k)).map (fun e => e.2.2)

/-- Little-endian decoding of a byte string (`struct.unpack` of `I`/`Q`
fields on a little-endian host). -/
def leDec (b : Bytes) : Nat := b.foldr (fun x acc => x + 256 * acc) 0

/-- `struct.pack('I', x)`: 4-byte little-endian encoding. -/
def le32 (x : Nat) : Bytes := (List.range 4).map (fun i => x / 256 ^ i % 256)

/-- `struct.pack('Q', x)`: 8-byte little-endian encoding. -/
def le64 (x : Nat) : Bytes := (List.range 8).map (fun i => x / 256 ^ i % 256)

/-- The 9-byte difficulty record `level[u8] ‖ count[u32] ‖ ts[u32]` as
written by `create_challenge`. -/
def encodeDiff (level count ts : Nat) : Bytes :=
  [level % 256] ++ le32 count ++ le32 ts

/-- The auth handshake `auth(s, id, alpha)`.  `nonce` is the random
32-byte value drawn by the server, `sig` the 64-byte signature the
client answers with, `eval` the external `pyoprf.evaluate` (`none` for
its exception path) and `sigOk` the external
`crypto_sign_verify_detached` check `(sig, msg, pk)`.  Returns the
outcome together with the bytes sent. -/
def auth (st : Option AccountDir) (eval : Bytes → Bytes → Option Bytes)
    (sigOk : Bytes → Bytes → Bytes → Bool) (alpha nonce sig : Bytes) :
    Outcome × List Bytes :=
  match load_blob st AccountDir.pub (some 32) with
  | .missing => (.failed, [failMarker])
  | .corrupted => (.exn, [])
  | .blob pk =>
    match lookupFile st AccountDir.key with
    | some k =>
      match eval (k.drop 1) alpha with
      | none => (.failed, [failMarker])
      | some e =>
        let beta := k.take 1 ++ e
        if sigOk sig nonce pk then (.ok, [beta ++ nonce, authMarker])
        else (.failed, [beta ++ nonce, failMarker])
    | none =>
      if sigOk sig nonce pk then (.ok, [nonce, authMarker])
      else (.failed, [nonce, failMarker])

/-- `get(conn, msg)` for message `0x66|id[32]|alpha[32]`.  `st` is the
directory of the account the id names, `ruleSize` the RULE_SIZE
constant.  Loads `key` expecting 33 bytes and `rules` expecting
RULE_SIZE bytes, evaluates the OPRF with `key[1:]` and replies
`key[:1] ++ beta ++ rules`. -/
def get (ruleSize : Nat) (eval : Bytes → Bytes → Option Bytes)
    (st : Option AccountDir) (msg : Bytes) : OpRes :=
  let alpha := (pop (pop (pop msg 1).2 32).2 32).1
  let m3 := (pop (pop (pop msg 1).2 32).2 32).2
  if m3 ≠ [] then ⟨.failed, st, [failMarker]⟩
  else
    match load_blob st AccountDir.key (some 33) with
    | .missing => ⟨.failed, st, [failMarker]⟩
    | .corrupted => ⟨.exn, st, []⟩
    | .blob k =>
      match load_blob st AccountDir.rules (some ruleSize) with
      | .missing => ⟨.failed, st, [failMarker]⟩
      | .corrupted => ⟨.exn, st, []⟩
      | .blob rules =>
        match eval (k.drop 1) alpha with
        | none => ⟨.failed, st, [failMarker]⟩
        | some beta => ⟨.ok, st, [k.take 1 ++ beta ++ rules]⟩

/-- The host-blob update `update_blob(s)` acting on the directory of the
host-record id (`signed_id[:32]`).  `newPk`, `pfx` and `signedblob` are
the client messages read on the enrolment path (`pfx`/`signedblob` are
also the messages of the update path; `read_pkt` guarantees
`signedblob` has the length announced in `pfx`, which the model keeps
abstract). -/
def update_blob (sigOk : Bytes → Bytes → Bytes → Bool)
    (st : Option AccountDir) (signed_id newPk pfx signedblob : Bytes) :
    OpRes :=
  if signed_id.length ≠ 32 + 64 then ⟨.failed, st, [failMarker]⟩
  else if (signed_id.take 32).sum = 0 then ⟨.ok, st, []⟩
  else
    match lookupFile st AccountDir.pub with
    | none =>
      if st.isSome then ⟨.failed, st, [failMarker]⟩
      else
        let blob0 : Bytes := [0, 0]
        match verify_blob sigOk (newPk ++ pfx ++ signedblob) newPk with
        | none => ⟨.failed, st, [blob0, failMarker]⟩
        | some m =>
          ⟨.ok,
           some { emptyDir with pub := some newPk, blob := some (m.drop 32) },
           [blob0]⟩
    | some pk =>
      match verify_blob sigOk signed_id pk with
      | none => ⟨.failed, st, [failMarker]⟩
      | some _ =>
        match lookupFile st AccountDir.blob with
        | none => ⟨.failed, st, [failMarker]⟩
        | some blob =>
          match verify_blob sigOk (pfx ++ signedblob) pk with
          | none => ⟨.failed, st, [blob, failMarker]⟩
          | some m =>
            ⟨.ok, st.map (fun d => { d with blob := some m }), [blob]⟩

/-- Result of `create`/`create_dkg`: outcome, the account directory, the
host-record directory touched by the embedded `update_blob` phase, and
the sent trace.  The account id and the host-record id name distinct
directories (the host record is the separate enrolment record). -/
structure CreateRes where
  out : Outcome
  st : Option AccountDir
  hst : Option AccountDir
  sent : List Bytes
  deriving DecidableEq, Repr

/-- `create(s, msg)` for message `0x00|id[32]|alpha[32]`.  `k` is the
fresh random 32-byte OPRF seed, `authMsg` the client's
`pubkey ++ rules ++ signature` message, and `signed_id`/`newPk`/`pfx`/
`signedblob` the inputs of the third-phase `update_blob` call, which
acts on the host-record directory `hst`.  On success the new account
directory holds `key := k` (the raw 32-byte seed), `pub` and `rules`. -/
def create (ruleSize : Nat) (eval : Bytes → Bytes → Option Bytes)
    (sigOk : Bytes → Bytes → Bytes → Bool) (k msg authMsg : Bytes)
    (signed_id newPk pfx signedblob : Bytes) (st hst : Option AccountDir) :
    CreateRes :=
  if msg.length ≠ 65 then ⟨.failed, st, hst, [failMarker]⟩
  else
    let alpha := (pop (pop (pop msg 1).2 32).2 32).1
    if st.isSome then ⟨.failed, st, hst, [failMarker]⟩
    else
      match eval k alpha with
      | none => ⟨.failed, st, hst, [failMarker]⟩
      | some beta =>
        if authMsg.length ≠ 32 + ruleSize + 64 then
          ⟨.failed, st, hst, [beta, failMarker]⟩
        else
          match verify_blob sigOk authMsg (authMsg.take 32) with
          | none => ⟨.failed, st, hst, [beta, failMarker]⟩
          | some body =>
            let ub := update_blob sigOk hst signed_id newPk pfx signedblob
            if ub.out ≠ .ok then ⟨ub.out, st, ub.st, beta :: ub.sent⟩
            else
              ⟨.ok,
               some { emptyDir with
                        key := some k,
                        pub := some (authMsg.take 32),
                        rules := some (body.drop 32) },
               ub.st, beta :: (ub.sent ++ [okMsg])⟩

/-- `create_dkg(s, msg)` for message `0xf0|index|t|n|id[32]|alpha[32]`.
The DKG subprotocol (Noise-XK sessions and the pyoprf dkg rounds) is
external cryptography; its resulting 33-byte indexed share is the
parameter `xi`.  On success the account directory holds `key := xi`. -/
def create_dkg (ruleSize : Nat) (eval : Bytes → Bytes → Option Bytes)
    (sigOk : Bytes → Bytes → Bytes → Bool) (xi msg authMsg : Bytes)
    (signed_id newPk pfx signedblob : Bytes) (st hst : Option AccountDir) :
    CreateRes :=
  if msg.length ≠ 68 then ⟨.failed, st, hst, [failMarker]⟩
  else
    let alpha := (pop (pop (pop (pop (pop (pop msg 1).2 1).2 1).2 1).2 32).2 32).1
    if st.isSome then ⟨.failed, st, hst, [failMarker]⟩
    else
      match eval (xi.drop 1) alpha with
      | none => ⟨.failed, st, hst, [failMarker]⟩
      | some beta =>
        let resp := xi.take 1 ++ beta
        if authMsg.length ≠ 32 + ruleSize + 64 then
          ⟨.failed, st, hst, [resp, failMarker]⟩
        else
          match verify_blob sigOk authMsg (authMsg.take 32) with
          | none => ⟨.failed, st, hst, [resp, failMarker]⟩
          | some body =>
            let ub := update_blob sigOk hst signed_id newPk pfx signedblob
            if ub.out ≠ .ok then ⟨ub.out, st, ub.st, resp :: ub.sent⟩
            else
              ⟨.ok,
               some { emptyDir with
                        key := some xi,
                        pub := some (authMsg.take 32),
                        rules := some (body.drop 32) },
               ub.st, resp :: (ub.sent ++ [okMsg])⟩

/-- The two shadow-file roles `'new'` and `'old'` that `handler` passes
to `commit_undo` (`('new','old')` for COMMIT, `('old','new')` for
UNDO). -/
inductive Role where
  | nw
  | od
  deriving DecidableEq, Repr

/-- The key file of a role (`'new'` / `'old'`). -/
def roleKey : Role → AccountDir → Option Bytes
  | .nw, d => d.keyNew
  | .od, d => d.keyOld

/-- The pub file of a role (`'pub.new'` / `'pub.old'`). -/
def rolePub : Role → AccountDir → Option Bytes
  | .nw, d => d.pubNew
  | .od, d => d.pubOld

/-- The rules file of a role (`'rules.new'` / `'rules.old'`). -/
def roleRules : Role → AccountDir → Option Bytes
  | .nw, d => d.rulesNew
  | .od, d => d.rulesOld

/-- Write the key file of a role. -/
def setRoleKey : Role → Option Bytes → AccountDir → AccountDir
  | .nw, v, d => { d with keyNew := v }
  | .od, v, d => { d with keyOld := v }

/-- Write the pub file of a role. -/
def setRolePub : Role → Option Bytes → AccountDir → AccountDir
  | .nw, v, d => { d with pubNew := v }
  | .od, v, d => { d with pubOld := v }

/-- Write the rules file of a role. -/
def setRoleRules : Role → Option Bytes → AccountDir → AccountDir
  | .nw, v, d => { d with rulesNew := v }
  | .od, v, d => { d with rulesOld := v }

/-- `commit_undo(conn, msg, new, old)` for message `op|id[32]|alpha[32]`.
Loads the six blobs (shadow rules/pub/key with role `nw`, live
rules/pub/key) with their size checks, then rotates: live triple to the
`od` role, `nw` triple to live, and unlinks the `nw` files. -/
def commit_undo (ruleSize : Nat) (eval : Bytes → Bytes → Option Bytes)
    (sigOk : Bytes → Bytes → Bytes → Bool) (nonce sig : Bytes)
    (st : Option AccountDir) (msg : Bytes) (rNew rOld : Role) : OpRes :=
  let alpha := (pop (pop (pop msg 1).2 32).2 32).1
  let m3 := (pop (pop (pop msg 1).2 32).2 32).2
  if m3 ≠ [] then ⟨.failed, st, [failMarker]⟩
  else if st = none then ⟨.failed, st, [failMarker]⟩
  else
    let a := auth st eval sigOk alpha nonce sig
    if a.1 ≠ .ok then ⟨a.1, st, a.2⟩
    else
      let aSent := a.2
      match load_blob st (roleRules rNew) (some ruleSize) with
      | .missing => ⟨.failed, st, aSent ++ [failMarker]⟩
      | .corrupted => ⟨.exn, st, aSent⟩
      | .blob newRules =>
        match load_blob st AccountDir.rules (some ruleSize) with
        | .missing => ⟨.failed, st, aSent ++ [failMarker]⟩
        | .corrupted => ⟨.exn, st, aSent⟩
        | .blob curRules =>
          match load_blob st (rolePub rNew) (some 32) with
          | .missing => ⟨.failed, st, aSent ++ [failMarker]⟩
          | .corrupted => ⟨.exn, st, aSent⟩
          | .blob newPub =>
            match load_blob st AccountDir.pub (some 32) with
            | .missing => ⟨.failed, st, aSent ++ [failMarker]⟩
            | .corrupted => ⟨.exn, st, aSent⟩
            | .blob curPub =>
              match load_blob st (roleKey rNew) (some 33) with
              | .missing => ⟨.failed, st, aSent ++ [failMarker]⟩
              | .corrupted => ⟨.exn, st, aSent⟩
              | .blob newKey =>
                match load_blob st AccountDir.key (some 33) with
                | .missing => ⟨.failed, st, aSent ++ [failMarker]⟩
                | .corrupted => ⟨.exn, st, aSent⟩
                | .blob curKey =>
                  ⟨.ok,
                   st.map (fun d =>
                     let d1 := setRoleKey rOld (some curKey) d
                     let d2 := setRoleRules rOld (some curRules) d1
                     let d3 := setRolePub rOld (some curPub) d2
                     let d4 := { d3 with key := some newKey,
                                         rules := some newRules,
                                         pub := some newPub }
                     let d5 := setRoleKey rNew none d4
                     let d6 := setRolePub rNew none d5
                     setRoleRules rNew none d6),
                   aSent ++ [okMsg]⟩

/-- `delete(conn, msg)` for message `op|id[32]|alpha[32]`: authenticate,
run the host-blob update on the host-record directory, then remove the
account directory recursively. -/
def delete (eval : Bytes → Bytes → Option Bytes)
    (sigOk : Bytes → Bytes → Bytes → Bool) (nonce sig : Bytes)
    (signed_id newPk pfx signedblob : Bytes) (st hst : Option AccountDir)
    (msg : Bytes) : CreateRes :=
  let alpha := (pop (pop (pop msg 1).2 32).2 32).1
  let m3 := (pop (pop (pop msg 1).2 32).2 32).2
  if m3 ≠ [] then ⟨.failed, st, hst, [failMarker]⟩
  else if st = none then ⟨.failed, st, hst, [failMarker]⟩
  else
    let a := auth st eval sigOk alpha nonce sig
    if a.1 ≠ .ok then ⟨a.1, st, hst, a.2⟩
    else
      let aSent := a.2
      let ub := update_blob sigOk hst signed_id newPk pfx signedblob
      if ub.out ≠ .ok then ⟨ub.out, st, ub.st, aSent ++ ub.sent⟩
      else ⟨.ok, none, ub.st, aSent ++ ub.sent ++ [okMsg]⟩

/-- Parse the 9-byte difficulty record `level[u8] ‖ count[u32] ‖ ts[u32]`
(`struct.unpack` of `B`, `I`, `I`). -/
def parseDiff (b : Bytes) : Nat × Nat × Nat :=
  (b.getD 0 0,
   leDec ((b.drop 1).take 4),
   leDec ((b.drop 5).take 4))

/-- The difficulty transition of `create_challenge` for an id that has a
stored record: clamp an invalid level, otherwise decay when more than
`rlDecay` seconds have passed (saturating subtraction of
`⌊(now − ts)/rlDecay⌋` levels, count reset), otherwise escalate.
Returns the `(level, count)` pair that is used and persisted. -/
def diffStep (rlDecay rlThreshold : Nat) (now : Int) (level count ts : Nat) :
    Nat × Nat :=
  if level ≥ Difficulties.length then (Difficulties.length - 1, 0)
  else if now - (rlDecay : Int) > (ts : Int) ∧ level > 0 then
    let periods := (((now - (ts : Int)).fdiv (rlDecay : Int))).toNat
    (if level ≥ periods then level - periods else 0, 0)
  else if count ≥ rlThreshold ∧ level < Difficulties.length - 1 then
    (level + 1, 0)
  else (level, count + 1)

/-- Result of `create_challenge`: the `(level, count)` pair persisted in
the difficulty record, the ladder parameters used, the outcome, the new
account-directory state (difficulty file updated) and the sent trace. -/
structure ChallengeRes where
  out : Outcome
  level : Nat
  count : Nat
  n : Nat
  k : Nat
  st : Option AccountDir
  sent : List Bytes
  deriving DecidableEq, Repr

/-- `create_challenge(conn)`.  `req` is the client request
(`op ‖ id[32]` for READ, `op ‖ id[32] ‖ alpha[32]` otherwise), `st` the
directory of the id it names, `macKey` the process-wide MAC key file
`<datadir>/key` (with `randKey` the lazily drawn replacement when it is
absent), `mac` the external 32-byte keyed generic hash over the
concatenated updates.  The persisted record is
`level ‖ count ‖ int(now)`; the reply is
`n[1] ‖ k[1] ‖ now[u64] ‖ mac(key, req ‖ challenge)`.  When the id has
no directory, the `FileNotFoundError` of the difficulty save is
swallowed (no prior record existed). -/
def create_challenge (rlDecay rlThreshold : Nat) (now : Int)
    (mac : Bytes → Bytes → Bytes) (macKey : Option Bytes) (randKey : Bytes)
    (st : Option AccountDir) (req : Bytes) : ChallengeRes :=
  if req.take 1 = READop ∧ req.length ≠ 33 then
    ⟨.failed, 0, 0, 0, 0, st, [failMarker]⟩
  else if req.take 1 ≠ READop ∧ req.length ≠ 65 then
    ⟨.failed, 0, 0, 0, 0, st, [failMarker]⟩
  else
    match load_blob st AccountDir.difficulty (some 9) with
    | .corrupted => ⟨.exn, 0, 0, 0, 0, st, []⟩
    | diffLoad =>
      let lc : Nat × Nat :=
        match diffLoad with
        | .blob v =>
          let (level, count, ts) := parseDiff v
          diffStep rlDecay rlThreshold now level count ts
        | _ => (0, 0)
      let n := ((Difficulties.getD lc.1 (0, 0, 0))).1
      let k := ((Difficulties.getD lc.1 (0, 0, 0))).2.1
      let st' := st.map (fun d =>
        { d with difficulty := some (encodeDiff lc.1 lc.2 now.toNat) })
      let challenge := [n, k] ++ le64 now.toNat
      match macKey with
      | some v =>
        if v.length = 32 then
          ⟨.ok, lc.1, lc.2, n, k, st', [challenge ++ mac v (req ++ challenge)]⟩
        else ⟨.exn, lc.1, lc.2, n, k, st', []⟩
      | none =>
        ⟨.ok, lc.1, lc.2, n, k, st',
         [challenge ++ mac randKey (req ++ challenge)]⟩

/-- Result of `verify_challenge`: the outcome, the sent trace, the seed
actually handed to `equihash.verify` (when that call is reached),
whether the solution bytes were read, and the request dispatched to
`handler` on success. -/
structure VerifyRes where
  out : Outcome
  sent : List Bytes
  seedUsed : Option Bytes
  solRead : Bool
  handled : Option Bytes
  deriving DecidableEq, Repr

/-- `verify_challenge(conn)`.  `challenge` is the first 42 bytes read
(`n[1] ‖ k[1] ‖ ts[8] ‖ sig[32]`), `reqType`/`payload` the embedded
request, `macKey` the process-wide MAC key file, `solution` the
solution bytes, `ehVerify`/`solsize` the external equihash interface,
`grace` the `rl_gracetime` setting.  Dispatching the request to
`handler` is modelled by the `handled` field of the result. -/
def verify_challenge (grace : Nat) (mac : Bytes → Bytes → Bytes)
    (ehVerify : Nat → Nat → Bytes → Bytes → Bool) (solsize : Nat → Nat → Nat)
    (now : Int) (macKey : Option Bytes)
    (challenge reqType payload solution : Bytes) : VerifyRes :=
  if challenge.length ≠ 42 then ⟨.failed, [failMarker], none, false, none⟩
  else
    let n := challenge.getD 0 0
    let k := challenge.getD 1 0
    let ts := leDec ((challenge.drop 2).take 8)
    let sig := (challenge.drop 10).take 32
    if reqType.take 1 = READop ∧ payload.length ≠ 32 then
      ⟨.failed, [failMarker], none, false, none⟩
    else if reqType.take 1 ≠ READop ∧ payload.length ≠ 64 then
      ⟨.failed, [failMarker], none, false, none⟩
    else
      let req := reqType ++ payload
      match macKey with
      | none => ⟨.failed, [failMarker], none, false, none⟩
      | some keyv =>
        if keyv.length ≠ 32 then ⟨.exn, [], none, false, none⟩
        else
          let tosign := challenge.take 10
          let macVal := mac keyv (req ++ tosign)
          if (List.zipWith Nat.xor macVal sig).sum ≠ 0 then
            ⟨.failed, [failMarker], none, false, none⟩
          else
            match RL_Timeouts n k with
            | none => ⟨.exn, [], none, false, none⟩
            | some tmo =>
              if now - ((tmo + grace : Nat) : Int) > (ts : Int) then
                ⟨.failed, [failMarker], none, false, none⟩
              else if solution.length ≠ solsize n k then
                ⟨.failed, [failMarker], none, true, none⟩
              else
                let seed := challenge ++ req
                if ehVerify n k seed solution then
                  ⟨.ok, [], some seed, true, some req⟩
                else ⟨.failed, [failMarker], some seed, true, none⟩

/-! ## Concrete fixtures used by witnesses and counterexamples -/

/-- A concrete stand-in for `pyoprf.evaluate` that always succeeds. -/
def evalConst : Bytes → Bytes → Option Bytes := fun _ _ => some (List.replicate 32 0)

/-- A concrete stand-in for signature verification that accepts. -/
def sigOkAll : Bytes → Bytes → Bytes → Bool := fun _ _ _ => true

/-- A concrete 32-byte nonce. -/
def nonce32 : Bytes := List.replicate 32 0

/-- A concrete 64-byte signature. -/
def sig64 : Bytes := List.replicate 64 0

/-- A concrete `op ‖ id[32] ‖ alpha[32]` message. -/
def msg65 : Bytes := 153 :: (List.replicate 32 0 ++ List.replicate 32 0)

/-- A concrete account directory with a well-sized live triple and a
well-sized staged shadow triple (RULE_SIZE instantiated to 1) and no
`.old` files. -/
def liveShadowDir : AccountDir :=
  { emptyDir with
      key := some (List.replicate 33 1), pub := some (List.replicate 32 2),
      rules := some [5],
      keyNew := some (List.replicate 33 3),
      pubNew := some (List.replicate 32 4), rulesNew := some [6] }

/-- An Equihash verifier accepting exactly seeds of 43 bytes — the
length of `challenge[:10] ++ (READ ‖ id[32])`, the seed the claim
describes. -/
def ehSeed43 : Nat → Nat → Bytes → Bytes → Bool := fun _ _ seed _ => seed.length == 43

/-- An Equihash verifier that always accepts. -/
def ehAccept : Nat → Nat → Bytes → Bytes → Bool := fun _ _ _ _ => true

/-- A keyed generic hash stand-in returning 32 zero bytes. -/
def macZero : Bytes → Bytes → Bytes := fun _ _ => List.replicate 32 0

/-- A concrete 42-byte challenge message `n=60 ‖ k=4 ‖ ts=0 ‖ sig=0³²`. -/
def chall42 : Bytes := [60, 4] ++ List.replicate 8 0 ++ List.replicate 32 0

/-! ## Helper lemmas -/

theorem zipWith_xor_self_sum (l : Bytes) :
    (List.zipWith Nat.xor l l).sum = 0 := by
  induction l with
  | nil => rfl
  | cons x xs ih =>
    simp only [List.zipWith_cons_cons, List.sum_cons, ih]
    have hx : Nat.xor x x = x ^^^ x := rfl
    rw [hx, Nat.xor_self]

theorem encodeDiff_length (l c t : Nat) : (encodeDiff l c t).length = 9 := by
  simp [encodeDiff, le32]

theorem parseDiff_encodeDiff (l c t : Nat) (hl : l < 256) (hc : c < 2 ^ 32)
    (ht : t < 2 ^ 32) : parseDiff (encodeDiff l c t) = (l, c, t) := by
  simp [parseDiff, encodeDiff, le32, leDec, List.range_succ]
  omega

theorem fdiv_toNat (x : Int) (n : Nat) (hx : 0 ≤ x) :
    (x.fdiv (n : Int)).toNat = x.toNat / n := by
  rw [Int.fdiv_eq_ediv _ (by omega)]
  obtain ⟨m, rfl⟩ := Int.eq_ofNat_of_zero_le hx
  norm_cast

theorem load_blob_eq_blob {st : Option AccountDir}
    {sel : AccountDir → Option Bytes} {size : Option Nat} {v : Bytes}
    (h : load_blob st sel size = .blob v) : lookupFile st sel = some v := by
  unfold load_blob at h
  cases hf : lookupFile st sel with
  | none => rw [hf] at h; exact absurd h (by simp)
  | some w =>
    rw [hf] at h
    cases size with
    | none => simp at h; rw [h]
    | some n =>
      simp only at h
      split at h
      · simp at h; rw [h]
      · exact absurd h (by simp)

/-- The `(level, count)` pair of a CHALLENGE_CREATE on an id whose
directory holds a well-formed difficulty record is given by
`diffStep` on the decoded record. -/
theorem create_challenge_level_count (rlDecay rlThreshold : Nat) (now : Int)
    (mac : Bytes → Bytes → Bytes) (macKey : Option Bytes) (randKey : Bytes)
    (d : AccountDir) (req : Bytes) (l c t : Nat)
    (h1 : ¬(req.take 1 = READop ∧ req.length ≠ 33))
    (h2 : ¬(req.take 1 ≠ READop ∧ req.length ≠ 65))
    (hd : d.difficulty = some (encodeDiff l c t))
    (hl : l < 256) (hc : c < 2 ^ 32) (ht : t < 2 ^ 32) :
    ((create_challenge rlDecay rlThreshold now mac macKey randKey
        (some d) req).level,
     (create_challenge rlDecay rlThreshold now mac macKey randKey
        (some d) req).count) =
    diffStep rlDecay rlThreshold now l c t := by
  simp only [create_challenge, if_neg h1, if_neg h2, load_blob, lookupFile,
    hd, encodeDiff_length, parseDiff_encodeDiff l c t hl hc ht]
  cases macKey with
  | none => simp [parseDiff_encodeDiff l c t hl hc ht]
  | some v =>
    by_cases hv : v.length = 32 <;>
      simp [hv, parseDiff_encodeDiff l c t hl hc ht]

theorem getLast?_append_one {α : Type} (l : List α) (a : α) :
    (l ++ [a]).getLast? = some a := by
  rw [List.getLast?_append_cons]
  rfl

theorem getLast?_cons_of {α : Type} {l : List α} {a : α} (x : α)
    (h : l.getLast? = some a) : (x :: l).getLast? = some a := by
  cases l with
  | nil => simp at h
  | cons y ys => rw [List.getLast?_cons_cons]; exact h

theorem getLast?_append_right {α : Type} {l₂ : List α} {a : α}
    (l₁ : List α) (h : l₂.getLast? = some a) :
    (l₁ ++ l₂).getLast? = some a := by
  cases l₂ with
  | nil => simp at h
  | cons y ys => rw [List.getLast?_append_cons]; exact h

/-- `get` ends with the fail marker whenever it terminates via `fail`,
and sends nothing on its exception path. -/
theorem get_marker (ruleSize : Nat) (eval : Bytes → Bytes → Option Bytes)
    (st : Option AccountDir) (msg : Bytes) :
    ((get ruleSize eval st msg).out = .failed →
      (get ruleSize eval st msg).sent.getLast? = some failMarker) ∧
    ((get ruleSize eval st msg).out = .exn →
      failMarker ∉ (get ruleSize eval st msg).sent) := by
  simp only [get]
  split_ifs with hm3
  · exact ⟨fun _ => rfl, fun h2 => (nomatch h2)⟩
  · repeat' split
    all_goals first
      | exact ⟨fun _ => rfl, fun h2 => (nomatch h2)⟩
      | exact ⟨fun h2 => (nomatch h2), fun _ => List.not_mem_nil _⟩
      | exact ⟨fun h2 => (nomatch h2), fun h2 => (nomatch h2)⟩

/-- `auth` ends with the fail marker when it fails, sends nothing on its
exception path, and never sends the marker on success. -/
theorem auth_marker (st : Option AccountDir)
    (eval : Bytes → Bytes → Option Bytes)
    (sigOk : Bytes → Bytes → Bytes → Bool) (alpha nonce sig : Bytes)
    (heval : ∀ kk aa bb, eval kk aa = some bb → bb.length = 32)
    (hnonce : nonce.length = 32) :
    ((auth st eval sigOk alpha nonce sig).1 = .failed →
      (auth st eval sigOk alpha nonce sig).2.getLast? = some failMarker) ∧
    ((auth st eval sigOk alpha nonce sig).1 = .exn →
      failMarker ∉ (auth st eval sigOk alpha nonce sig).2) ∧
    ((auth st eval sigOk alpha nonce sig).1 = .ok →
      failMarker ∉ (auth st eval sigOk alpha nonce sig).2) := by
  have hfm : failMarker.length = 6 := rfl
  have ham : authMarker.length = 6 := rfl
  have hneq : failMarker ≠ authMarker := by decide
  simp only [auth]
  split
  · exact ⟨fun _ => rfl, fun h2 => (nomatch h2), fun h2 => (nomatch h2)⟩
  · exact ⟨fun h2 => (nomatch h2), fun _ => List.not_mem_nil _,
           fun h2 => (nomatch h2)⟩
  · split
    · rename_i k hk
      split
      · exact ⟨fun _ => rfl, fun h2 => (nomatch h2), fun h2 => (nomatch h2)⟩
      · rename_i e he
        have hne : failMarker ≠ (k.take 1 ++ e) ++ nonce := by
          intro hEq
          have hlen := congrArg List.length hEq
          rw [List.length_append, List.length_append, List.length_take,
            heval _ _ _ he, hnonce, hfm] at hlen
          omega
        split
        · refine ⟨fun h2 => (nomatch h2), fun h2 => (nomatch h2),
                  fun _ hmem => ?_⟩
          rcases List.mem_cons.mp hmem with h1 | h1
          · exact hne h1
          · exact hneq (List.mem_singleton.mp h1)
        · exact ⟨fun _ => rfl, fun h2 => (nomatch h2), fun h2 => (nomatch h2)⟩
    · have hne : failMarker ≠ nonce := by
        intro hEq
        have hlen := congrArg List.length hEq
        rw [hnonce, hfm] at hlen
        omega
      split
      · refine ⟨fun h2 => (nomatch h2), fun h2 => (nomatch h2),
                fun _ hmem => ?_⟩
        rcases List.mem_cons.mp hmem with h1 | h1
        · exact hne h1
        · exact hneq (List.mem_singleton.mp h1)
      · exact ⟨fun _ => rfl, fun h2 => (nomatch h2), fun h2 => (nomatch h2)⟩

/-- `update_blob` ends with the fail marker when it fails and has no
exception path. -/
theorem update_blob_marker (sigOk : Bytes → Bytes → Bytes → Bool)
    (st : Option AccountDir) (sid npk pfx sb : Bytes) :
    ((update_blob sigOk st sid npk pfx sb).out = .failed →
      (update_blob sigOk st sid npk pfx sb).sent.getLast? =
        some failMarker) ∧
    (update_blob sigOk st sid npk pfx sb).out ≠ .exn := by
  simp only [update_blob]
  repeat' split
  all_goals first
    | exact ⟨fun _ => rfl, fun h2 => (nomatch h2)⟩
    | exact ⟨fun h2 => (nomatch h2), fun h2 => (nomatch h2)⟩

/-- `create` ends with the fail marker when it fails and has no
exception path. -/
theorem create_marker (ruleSize : Nat) (eval : Bytes → Bytes → Option Bytes)
    (sigOk : Bytes → Bytes → Bytes → Bool) (k msg authMsg : Bytes)
    (sid npk pfx sb : Bytes) (st hst : Option AccountDir) :
    ((create ruleSize eval sigOk k msg authMsg sid npk pfx sb st hst).out =
        .failed →
      (create ruleSize eval sigOk k msg authMsg sid npk pfx sb st
        hst).sent.getLast? = some failMarker) ∧
    (create ruleSize eval sigOk k msg authMsg sid npk pfx sb st hst).out ≠
      .exn := by
  have hub := update_blob_marker sigOk hst sid npk pfx sb
  simp only [create]
  split_ifs with hl hs hu
  all_goals repeat' split
  all_goals first
    | exact ⟨fun _ => rfl, fun h2 => (nomatch h2)⟩
    | exact ⟨fun h2 => getLast?_cons_of _ (hub.1 h2), fun h2 => hub.2 h2⟩
    | exact ⟨fun h2 => (nomatch h2), fun h2 => (nomatch h2)⟩

/-- `create_dkg` ends with the fail marker when it fails and has no
exception path. -/
theorem create_dkg_marker (ruleSize : Nat)
    (eval : Bytes → Bytes → Option Bytes)
    (sigOk : Bytes → Bytes → Bytes → Bool) (xi msg authMsg : Bytes)
    (sid npk pfx sb : Bytes) (st hst : Option AccountDir) :
    ((create_dkg ruleSize eval sigOk xi msg authMsg sid npk pfx sb st
        hst).out = .failed →
      (create_dkg ruleSize eval sigOk xi msg authMsg sid npk pfx sb st
        hst).sent.getLast? = some failMarker) ∧
    (create_dkg ruleSize eval sigOk xi msg authMsg sid npk pfx sb st
      hst).out ≠ .exn := by
  have hub := update_blob_marker sigOk hst sid npk pfx sb
  simp only [create_dkg]
  split_ifs with hl hs hu
  all_goals repeat' split
  all_goals first
    | exact ⟨fun _ => rfl, fun h2 => (nomatch h2)⟩
    | exact ⟨fun h2 => getLast?_cons_of _ (hub.1 h2), fun h2 => hub.2 h2⟩
    | exact ⟨fun h2 => (nomatch h2), fun h2 => (nomatch h2)⟩

/-- `commit_undo` ends with the fail marker when it fails, and its
exception paths (corrupted blobs) never send the marker. -/
theorem commit_undo_marker (ruleSize : Nat)
    (eval : Bytes → Bytes → Option Bytes)
    (sigOk : Bytes → Bytes → Bytes → Bool) (nonce sig : Bytes)
    (st : Option AccountDir) (msg : Bytes) (rNew rOld : Role)
    (heval : ∀ kk aa bb, eval kk aa = some bb → bb.length = 32)
    (hnonce : nonce.length = 32) :
    ((commit_undo ruleSize eval sigOk nonce sig st msg rNew rOld).out =
        .failed →
      (commit_undo ruleSize eval sigOk nonce sig st msg rNew
        rOld).sent.getLast? = some failMarker) ∧
    ((commit_undo ruleSize eval sigOk nonce sig st msg rNew rOld).out =
        .exn →
      failMarker ∉
        (commit_undo ruleSize eval sigOk nonce sig st msg rNew
          rOld).sent) := by
  have hAM := auth_marker st eval sigOk
    ((pop (pop (pop msg 1).2 32).2 32).1) nonce sig heval hnonce
  simp only [commit_undo]
  split_ifs with hm3 hstn hcond
  · exact ⟨fun _ => rfl, fun h2 => (nomatch h2)⟩
  · exact ⟨fun _ => rfl, fun h2 => (nomatch h2)⟩
  · exact ⟨hAM.1, hAM.2.1⟩
  · have hok : failMarker ∉
        (auth st eval sigOk ((pop (pop (pop msg 1).2 32).2 32).1)
          nonce sig).2 := hAM.2.2 (of_not_not hcond)
    repeat' split
    all_goals first
      | exact ⟨fun _ => getLast?_append_one _ _,
               fun h2 => (nomatch h2)⟩
      | exact ⟨fun h2 => (nomatch h2), fun _ => hok⟩
      | exact ⟨fun h2 => (nomatch h2), fun h2 => (nomatch h2)⟩

/-- `delete` ends with the fail marker when it fails, and its exception
path never sends the marker. -/
theorem delete_marker (eval : Bytes → Bytes → Option Bytes)
    (sigOk : Bytes → Bytes → Bytes → Bool) (nonce sig : Bytes)
    (sid npk pfx sb : Bytes) (st hst : Option AccountDir) (msg : Bytes)
    (heval : ∀ kk aa bb, eval kk aa = some bb → bb.length = 32)
    (hnonce : nonce.length = 32) :
    ((delete eval sigOk nonce sig sid npk pfx sb st hst msg).out =
        .failed →
      (delete eval sigOk nonce sig sid npk pfx sb st hst
        msg).sent.getLast? = some failMarker) ∧
    ((delete eval sigOk nonce sig sid npk pfx sb st hst msg).out = .exn →
      failMarker ∉
        (delete eval sigOk nonce sig sid npk pfx sb st hst msg).sent) := by
  have hub := update_blob_marker sigOk hst sid npk pfx sb
  have hAM := auth_marker st eval sigOk
    ((pop (pop (pop msg 1).2 32).2 32).1) nonce sig heval hnonce
  simp only [delete]
  split_ifs with hm3 hstn hcond hub2
  · exact ⟨fun _ => rfl, fun h2 => (nomatch h2)⟩
  · exact ⟨fun _ => rfl, fun h2 => (nomatch h2)⟩
  · exact ⟨hAM.1, hAM.2.1⟩
  · exact ⟨fun h2 => getLast?_append_right _ (hub.1 h2),
           fun h2 => absurd h2 hub.2⟩
  · exact ⟨fun h2 => (nomatch h2), fun h2 => (nomatch h2)⟩

/-- `verify_challenge` ends with the fail marker when it fails and
sends nothing on its exception paths. -/
theorem verify_challenge_marker (grace : Nat) (mac : Bytes → Bytes → Bytes)
    (ehVerify : Nat → Nat → Bytes → Bytes → Bool)
    (solsize : Nat → Nat → Nat) (now : Int) (macKey : Option Bytes)
    (challenge reqType payload solution : Bytes) :
    ((verify_challenge grace mac ehVerify solsize now macKey challenge
        reqType payload solution).out = .failed →
      (verify_challenge grace mac ehVerify solsize now macKey challenge
        reqType payload solution).sent.getLast? = some failMarker) ∧
    ((verify_challenge grace mac ehVerify solsize now macKey challenge
        reqType payload solution).out = .exn →
      failMarker ∉
        (verify_challenge grace mac ehVerify solsize now macKey challenge
          reqType payload solution).sent) := by
  simp only [verify_challenge]
  repeat' split
  all_goals first
    | exact ⟨fun _ => rfl, fun h2 => (nomatch h2)⟩
    | exact ⟨fun h2 => (nomatch h2), fun _ => List.not_mem_nil _⟩

/-- `create_challenge` ends with the fail marker when it fails and
sends nothing on its exception paths. -/
theorem create_challenge_marker (rlDecay rlThreshold : Nat) (now : Int)
    (mac : Bytes → Bytes → Bytes) (macKey : Option Bytes) (randKey : Bytes)
    (st : Option AccountDir) (req : Bytes) :
    ((create_challenge rlDecay rlThreshold now mac macKey randKey st
        req).out = .failed →
      (create_challenge rlDecay rlThreshold now mac macKey randKey st
        req).sent.getLast? = some failMarker) ∧
    ((create_challenge rlDecay rlThreshold now mac macKey randKey st
        req).out = .exn →
      failMarker ∉
        (create_challenge rlDecay rlThreshold now mac macKey randKey st
          req).sent) := by
  simp only [create_challenge]
  repeat' split
  all_goals first
    | exact ⟨fun _ => rfl, fun h2 => (nomatch h2)⟩
    | exact ⟨fun h2 => (nomatch h2), fun _ => List.not_mem_nil _⟩
    | exact ⟨fun h2 => (nomatch h2), fun h2 => (nomatch h2)⟩

/-- Reduction of `verify_challenge` past the framing, MAC-key and MAC
checks: with a well-formed 42-byte challenge, a well-formed request, a
32-byte MAC key, a matching MAC and ladder parameters present in
`RL_Timeouts`, the result is decided by the staleness check, the
solution size and the equihash verification on the seed
`challenge ++ req` (the full 42 bytes read, signature included). -/
theorem verify_challenge_reduces (grace : Nat) (mac : Bytes → Bytes → Bytes)
    (ehVerify : Nat → Nat → Bytes → Bytes → Bool) (solsize : Nat → Nat → Nat)
    (now : Int) (keyv challenge reqType payload solution : Bytes) (tmo : Nat)
    (hch : challenge.length = 42)
    (hp1 : ¬(reqType.take 1 = READop ∧ payload.length ≠ 32))
    (hp2 : ¬(reqType.take 1 ≠ READop ∧ payload.length ≠ 64))
    (hkey : keyv.length = 32)
    (hmac : mac keyv ((reqType ++ payload) ++ challenge.take 10) =
      (challenge.drop 10).take 32)
    (htmo : RL_Timeouts (challenge.getD 0 0) (challenge.getD 1 0) =
      some tmo) :
    verify_challenge grace mac ehVerify solsize now (some keyv) challenge
        reqType payload solution =
      if now - ((tmo + grace : Nat) : Int) >
          ((leDec ((challenge.drop 2).take 8) : Nat) : Int) then
        ⟨.failed, [failMarker], none, false, none⟩
      else if solution.length ≠
          solsize (challenge.getD 0 0) (challenge.getD 1 0) then
        ⟨.failed, [failMarker], none, true, none⟩
      else if ehVerify (challenge.getD 0 0) (challenge.getD 1 0)
          (challenge ++ (reqType ++ payload)) solution then
        ⟨.ok, [], some (challenge ++ (reqType ++ payload)), true,
         some (reqType ++ payload)⟩
      else
        ⟨.failed, [failMarker], some (challenge ++ (reqType ++ payload)),
         true, none⟩ := by
  simp only [verify_challenge, hch, if_neg hp1, if_neg hp2, hkey, hmac,
    zipWith_xor_self_sum, htmo]
  simp

/-! ## Claim theorems -/

/-- C6 (amended): for a stored difficulty record at valid level `l > 0`,
whenever `now − ts > rl_decay` the next CHALLENGE_CREATE uses and
persists level `l − ⌊(now − ts)/rl_decay⌋` (saturating at 0) and count
0; in particular when strictly more than `rl_decay·l` seconds have
passed, the level used and persisted is 0 and the count 0. -/
theorem C6_decay_resets (rlDecay rlThreshold : Nat) (now : Int)
    (mac : Bytes → Bytes → Bytes) (macKey : Option Bytes) (randKey : Bytes)
    (d : AccountDir) (req : Bytes) (l c t : Nat)
    (h1 : ¬(req.take 1 = READop ∧ req.length ≠ 33))
    (h2 : ¬(req.take 1 ≠ READop ∧ req.length ≠ 65))
    (hd : d.difficulty = some (encodeDiff l c t))
    (hD : 0 < rlDecay) (hl0 : 0 < l) (hl : l ≤ 12)
    (hc : c < 2 ^ 32) (ht : t < 2 ^ 32)
    (helapsed : (rlDecay : Int) < now - (t : Int)) :
    ((create_challenge rlDecay rlThreshold now mac macKey randKey
        (some d) req).level =
      l - ((now - (t : Int)).fdiv (rlDecay : Int)).toNat ∧
     (create_challenge rlDecay rlThreshold now mac macKey randKey
        (some d) req).count = 0) ∧
    ((rlDecay * l : Nat) < now - (t : Int) →
     (create_challenge rlDecay rlThreshold now mac macKey randKey
        (some d) req).level = 0) := by
  have h := create_challenge_level_count rlDecay rlThreshold now mac macKey
    randKey d req l c t h1 h2 hd (by omega) hc ht
  rw [diffStep] at h
  have hL : Difficulties.length = 13 := rfl
  rw [hL] at h
  rw [if_neg (by omega), if_pos ⟨by omega, hl0⟩] at h
  rw [Prod.ext_iff] at h
  obtain ⟨h1', h2'⟩ := h
  simp only at h1' h2'
  have hx : (0 : Int) ≤ now - (t : Int) := by omega
  constructor
  · refine ⟨?_, h2'⟩
    rw [h1']
    split <;> omega
  · intro hml
    rw [h1']
    have hp : ((now - (t : Int)).fdiv (rlDecay : Int)).toNat =
        (now - (t : Int)).toNat / rlDecay := fdiv_toNat _ _ hx
    have hle : rlDecay * l ≤ (now - (t : Int)).toNat := by omega
    have : l ≤ (now - (t : Int)).toNat / rlDecay :=
      (Nat.le_div_iff_mul_le hD).mpr (by rw [Nat.mul_comm]; omega)
    rw [hp]
    split <;> omega

/-- Witness for C6: with the default settings, level 3 and a silence of
3601 seconds, the next challenge decays by ⌊3601/1800⌋ = 2 levels. -/
theorem C6_decay_resets_witness :
    ((create_challenge 1800 1 3601 (fun _ _ => []) none []
        (some { emptyDir with difficulty := some (encodeDiff 3 0 0) })
        (GETop ++ List.replicate 64 0)).level =
      3 - ((3601 - ((0 : Nat) : Int)).fdiv (1800 : Int)).toNat ∧
     (create_challenge 1800 1 3601 (fun _ _ => []) none []
        (some { emptyDir with difficulty := some (encodeDiff 3 0 0) })
        (GETop ++ List.replicate 64 0)).count = 0) ∧
    ((1800 * 3 : Nat) < 3601 - ((0 : Nat) : Int) →
     (create_challenge 1800 1 3601 (fun _ _ => []) none []
        (some { emptyDir with difficulty := some (encodeDiff 3 0 0) })
        (GETop ++ List.replicate 64 0)).level = 0) :=
  C6_decay_resets 1800 1 3601 (fun _ _ => []) none []
    { emptyDir with difficulty := some (encodeDiff 3 0 0) }
    (GETop ++ List.replicate 64 0) 3 0 0
    (by decide) (by decide) rfl (by decide) (by decide) (by decide)
    (by decide) (by decide) (by decide)

/-- Counterexample to C6 as stated: with `rl_decay = 1800`,
`rl_threshold = 1`, a stored record at level 1, count 1, ts 0, a
CHALLENGE_CREATE arriving exactly `rl_decay·1 = 1800` seconds later
(i.e. after at least `rl_decay·level` seconds of silence) escalates to
level 2 instead of decaying to level 0: the strict decay guard
`now − ts > rl_decay` does not fire at equality. -/
theorem C6_counterexample :
    ((create_challenge 1800 1 1800 (fun _ _ => List.replicate 32 0) none []
        (some { emptyDir with difficulty := some (encodeDiff 1 1 0) })
        (GETop ++ List.replicate 64 0)).level,
     (create_challenge 1800 1 1800 (fun _ _ => List.replicate 32 0) none []
        (some { emptyDir with difficulty := some (encodeDiff 1 1 0) })
        (GETop ++ List.replicate 64 0)).count) = (2, 0) ∧
    ((2, 0) : Nat × Nat) ≠ (0, 0) := by
  constructor
  · decide
  · decide

/-- C7: with an existing valid difficulty record and the decay case not
applying, CHALLENGE_CREATE escalates: if `count ≥ rl_threshold` and
`level < L−1` the persisted level is `level+1` with count 0, otherwise
the count is incremented and the level unchanged; and for every record
the persisted level never exceeds `L−1 = 12`. -/
theorem C7_escalation (rlDecay rlThreshold : Nat) (now : Int)
    (mac : Bytes → Bytes → Bytes) (macKey : Option Bytes) (randKey : Bytes)
    (d : AccountDir) (req : Bytes) (l c t : Nat)
    (h1 : ¬(req.take 1 = READop ∧ req.length ≠ 33))
    (h2 : ¬(req.take 1 ≠ READop ∧ req.length ≠ 65))
    (hd : d.difficulty = some (encodeDiff l c t))
    (hl : l < Difficulties.length)
    (hc : c < 2 ^ 32) (ht : t < 2 ^ 32)
    (hnodecay : ¬(now - (rlDecay : Int) > (t : Int) ∧ 0 < l)) :
    ((create_challenge rlDecay rlThreshold now mac macKey randKey
        (some d) req).level,
     (create_challenge rlDecay rlThreshold now mac macKey randKey
        (some d) req).count) =
      (if rlThreshold ≤ c ∧ l < Difficulties.length - 1
       then (l + 1, 0) else (l, c + 1)) ∧
    (∀ l' c' t' : Nat,
      (diffStep rlDecay rlThreshold now l' c' t').1 ≤
        Difficulties.length - 1) := by
  have hL : Difficulties.length = 13 := rfl
  have h := create_challenge_level_count rlDecay rlThreshold now mac macKey
    randKey d req l c t h1 h2 hd (by omega) hc ht
  rw [diffStep, hL] at h
  rw [if_neg (by omega), if_neg hnodecay] at h
  constructor
  · rw [h, hL]
  · intro l' c' t'
    rw [diffStep, hL]
    split
    · omega
    · split
      · simp only
        split <;> omega
      · split <;> omega

/-- Witness for C7: at the top level 12 with count 5 ≥ threshold, the
level stays 12 and the count grows to 6. -/
theorem C7_escalation_witness :
    ((create_challenge 1800 1 100 (fun _ _ => []) none []
        (some { emptyDir with difficulty := some (encodeDiff 12 5 90) })
        (GETop ++ List.replicate 64 0)).level,
     (create_challenge 1800 1 100 (fun _ _ => []) none []
        (some { emptyDir with difficulty := some (encodeDiff 12 5 90) })
        (GETop ++ List.replicate 64 0)).count) =
      (if 1 ≤ 5 ∧ 12 < Difficulties.length - 1
       then (12 + 1, 0) else (12, 5 + 1)) ∧
    (∀ l' c' t' : Nat,
      (diffStep 1800 1 100 l' c' t').1 ≤ Difficulties.length - 1) :=
  C7_escalation 1800 1 100 (fun _ _ => []) none []
    { emptyDir with difficulty := some (encodeDiff 12 5 90) }
    (GETop ++ List.replicate 64 0) 12 5 90
    (by decide) (by decide) rfl (by decide) (by decide) (by decide)
    (by decide)

/-- Generic reduction of a successful COMMIT (`commit_undo` with roles
`('new','old')`) on a directory whose live and shadow triples are
present and well-sized. -/
theorem commit_rotate (ruleSize : Nat)
    (eval : Bytes → Bytes → Option Bytes)
    (sigOk : Bytes → Bytes → Bytes → Bool) (nonce sig : Bytes) (o : Nat)
    (id alpha : Bytes) (d : AccountDir) (ck pk rl nk npk nrl e : Bytes)
    (hid : id.length = 32) (halpha : alpha.length = 32)
    (hck : d.key = some ck) (hckl : ck.length = 33)
    (hpk : d.pub = some pk) (hpkl : pk.length = 32)
    (hrl : d.rules = some rl) (hrll : rl.length = ruleSize)
    (hnk : d.keyNew = some nk) (hnkl : nk.length = 33)
    (hnpk : d.pubNew = some npk) (hnpkl : npk.length = 32)
    (hnrl : d.rulesNew = some nrl) (hnrll : nrl.length = ruleSize)
    (heval : eval (ck.drop 1) alpha = some e)
    (hsig : sigOk sig nonce pk = true) :
    commit_undo ruleSize eval sigOk nonce sig (some d)
        (o :: (id ++ alpha)) .nw .od =
      ⟨.ok,
       some { d with key := some nk, pub := some npk, rules := some nrl,
                     keyOld := some ck, pubOld := some pk,
                     rulesOld := some rl,
                     keyNew := none, pubNew := none, rulesNew := none },
       [ck.take 1 ++ e ++ nonce, authMarker, okMsg]⟩ := by
  have heval' : eval ck.tail alpha = some e := by
    rwa [← List.drop_one]
  have htake : alpha.take 32 = alpha := List.take_of_length_le (le_of_eq halpha)
  simp only [commit_undo, pop, List.drop_succ_cons, List.drop_zero,
    List.drop_left' hid, List.drop_eq_nil_of_le (le_of_eq halpha),
    htake]
  rw [if_neg (by simp)]
  simp only [auth, load_blob, lookupFile, hck, hpk, hrl, hnk, hnpk, hnrl,
    hckl, hpkl, hrll, hnkl, hnpkl, hnrll, heval, heval', hsig, roleKey,
    rolePub, roleRules, setRoleKey, setRolePub, setRoleRules, if_true]
  simp

/-- Generic reduction of a successful UNDO (`commit_undo` with roles
`('old','new')`) on a directory whose live and `.old` triples are
present and well-sized.  The prior live triple is restaged as the
shadow triple, overwriting any shadow files, and the `.old` files are
removed. -/
theorem undo_rotate (ruleSize : Nat)
    (eval : Bytes → Bytes → Option Bytes)
    (sigOk : Bytes → Bytes → Bytes → Bool) (nonce sig : Bytes) (o : Nat)
    (id alpha : Bytes) (d : AccountDir) (ko po ro k p r e : Bytes)
    (hid : id.length = 32) (halpha : alpha.length = 32)
    (hk : d.key = some k) (hkl : k.length = 33)
    (hp : d.pub = some p) (hpl : p.length = 32)
    (hr : d.rules = some r) (hrl : r.length = ruleSize)
    (hko : d.keyOld = some ko) (hkol : ko.length = 33)
    (hpo : d.pubOld = some po) (hpol : po.length = 32)
    (hro : d.rulesOld = some ro) (hrol : ro.length = ruleSize)
    (heval : eval (k.drop 1) alpha = some e)
    (hsig : sigOk sig nonce p = true) :
    commit_undo ruleSize eval sigOk nonce sig (some d)
        (o :: (id ++ alpha)) .od .nw =
      ⟨.ok,
       some { d with key := some ko, pub := some po, rules := some ro,
                     keyNew := some k, pubNew := some p, rulesNew := some r,
                     keyOld := none, pubOld := none, rulesOld := none },
       [k.take 1 ++ e ++ nonce, authMarker, okMsg]⟩ := by
  have heval' : eval k.tail alpha = some e := by
    rwa [← List.drop_one]
  have htake : alpha.take 32 = alpha := List.take_of_length_le (le_of_eq halpha)
  simp only [commit_undo, pop, List.drop_succ_cons, List.drop_zero,
    List.drop_left' hid, List.drop_eq_nil_of_le (le_of_eq halpha),
    htake]
  rw [if_neg (by simp)]
  simp only [auth, load_blob, lookupFile, hk, hp, hr, hko, hpo, hro,
    hkl, hpl, hrl, hkol, hpol, hrol, heval, heval', hsig, roleKey,
    rolePub, roleRules, setRoleKey, setRolePub, setRoleRules, if_true]
  simp

/-- C5: a successful COMMIT on an account whose live triple and shadow
triple are all present and well-sized replaces the live triple by the
prior shadow triple, the `.old` triple by the prior live triple, and
removes the shadow files (all other files unchanged). -/
theorem C5_commit_promotes (ruleSize : Nat)
    (eval : Bytes → Bytes → Option Bytes)
    (sigOk : Bytes → Bytes → Bytes → Bool) (nonce sig : Bytes) (o : Nat)
    (id alpha : Bytes) (d : AccountDir) (ck pk rl nk npk nrl e : Bytes)
    (hid : id.length = 32) (halpha : alpha.length = 32)
    (hck : d.key = some ck) (hckl : ck.length = 33)
    (hpk : d.pub = some pk) (hpkl : pk.length = 32)
    (hrl : d.rules = some rl) (hrll : rl.length = ruleSize)
    (hnk : d.keyNew = some nk) (hnkl : nk.length = 33)
    (hnpk : d.pubNew = some npk) (hnpkl : npk.length = 32)
    (hnrl : d.rulesNew = some nrl) (hnrll : nrl.length = ruleSize)
    (heval : eval (ck.drop 1) alpha = some e)
    (hsig : sigOk sig nonce pk = true) :
    commit_undo ruleSize eval sigOk nonce sig (some d)
        (o :: (id ++ alpha)) .nw .od =
      ⟨.ok,
       some { d with key := some nk, pub := some npk, rules := some nrl,
                     keyOld := some ck, pubOld := some pk,
                     rulesOld := some rl,
                     keyNew := none, pubNew := none, rulesNew := none },
       [ck.take 1 ++ e ++ nonce, authMarker, okMsg]⟩ :=
  commit_rotate ruleSize eval sigOk nonce sig o id alpha d ck pk rl nk npk
    nrl e hid halpha hck hckl hpk hpkl hrl hrll hnk hnkl hnpk hnpkl hnrl
    hnrll heval hsig

/-- Witness for C5 at a concrete account directory. -/
theorem C5_commit_promotes_witness :
    commit_undo 1 evalConst sigOkAll nonce32 sig64 (some liveShadowDir)
        (153 :: (List.replicate 32 0 ++ List.replicate 32 0)) .nw .od =
      ⟨.ok,
       some { liveShadowDir with
                key := some (List.replicate 33 3),
                pub := some (List.replicate 32 4), rules := some [6],
                keyOld := some (List.replicate 33 1),
                pubOld := some (List.replicate 32 2), rulesOld := some [5],
                keyNew := none, pubNew := none, rulesNew := none },
       [(List.replicate 33 1).take 1 ++ List.replicate 32 0 ++ nonce32,
        authMarker, okMsg]⟩ :=
  C5_commit_promotes 1 evalConst sigOkAll nonce32 sig64 153
    (List.replicate 32 0) (List.replicate 32 0) liveShadowDir
    (List.replicate 33 1) (List.replicate 32 2) [5]
    (List.replicate 33 3) (List.replicate 32 4) [6] (List.replicate 32 0)
    (by decide) (by decide) rfl (by decide) rfl (by decide) rfl (by decide)
    rfl (by decide) rfl (by decide) rfl (by decide) rfl rfl

/-- C3 (amended): an UNDO immediately after a successful COMMIT leaves
the on-disk state equal to the pre-commit state provided no `.old`
files existed before the commit; after the UNDO the `.old` files are
absent, while the shadow files are present again (they equal the
pre-commit shadow triple, which the pre-commit state contained). -/
theorem C3_undo_after_commit (ruleSize : Nat)
    (eval : Bytes → Bytes → Option Bytes)
    (sigOk : Bytes → Bytes → Bytes → Bool)
    (nonce sig nonce2 sig2 : Bytes) (o o2 : Nat)
    (id alpha id2 alpha2 : Bytes) (d : AccountDir)
    (ck pk rl nk npk nrl e e2 : Bytes)
    (hid : id.length = 32) (halpha : alpha.length = 32)
    (hid2 : id2.length = 32) (halpha2 : alpha2.length = 32)
    (hck : d.key = some ck) (hckl : ck.length = 33)
    (hpk : d.pub = some pk) (hpkl : pk.length = 32)
    (hrl : d.rules = some rl) (hrll : rl.length = ruleSize)
    (hnk : d.keyNew = some nk) (hnkl : nk.length = 33)
    (hnpk : d.pubNew = some npk) (hnpkl : npk.length = 32)
    (hnrl : d.rulesNew = some nrl) (hnrll : nrl.length = ruleSize)
    (hold1 : d.keyOld = none) (hold2 : d.pubOld = none)
    (hold3 : d.rulesOld = none)
    (heval : eval (ck.drop 1) alpha = some e)
    (hsig : sigOk sig nonce pk = true)
    (heval2 : eval (nk.drop 1) alpha2 = some e2)
    (hsig2 : sigOk sig2 nonce2 npk = true) :
    commit_undo ruleSize eval sigOk nonce2 sig2
        (commit_undo ruleSize eval sigOk nonce sig (some d)
          (o :: (id ++ alpha)) .nw .od).st
        (o2 :: (id2 ++ alpha2)) .od .nw =
      ⟨.ok, some d, [nk.take 1 ++ e2 ++ nonce2, authMarker, okMsg]⟩ := by
  obtain ⟨k1, p1, r1, kn1, pn1, rn1, ko1, po1, ro1, df1, bl1⟩ := d
  rw [commit_rotate ruleSize eval sigOk nonce sig o id alpha _ ck pk rl nk
    npk nrl e hid halpha hck hckl hpk hpkl hrl hrll hnk hnkl hnpk hnpkl
    hnrl hnrll heval hsig]
  rw [undo_rotate ruleSize eval sigOk nonce2 sig2 o2 id2 alpha2 _ ck pk rl
    nk npk nrl e2 hid2 halpha2 rfl hnkl rfl hnpkl rfl hnrll rfl hckl rfl
    hpkl rfl hrll heval2 hsig2]
  simp_all

/-- Witness for C3 at a concrete account directory. -/
theorem C3_undo_after_commit_witness :
    commit_undo 1 evalConst sigOkAll nonce32 sig64
        (commit_undo 1 evalConst sigOkAll nonce32 sig64
          (some liveShadowDir)
          (153 :: (List.replicate 32 0 ++ List.replicate 32 0)) .nw .od).st
        (93 :: (List.replicate 32 0 ++ List.replicate 32 0)) .od .nw =
      ⟨.ok, some liveShadowDir,
       [(List.replicate 33 3).take 1 ++ List.replicate 32 0 ++ nonce32,
        authMarker, okMsg]⟩ :=
  C3_undo_after_commit 1 evalConst sigOkAll nonce32 sig64 nonce32 sig64
    153 93 (List.replicate 32 0) (List.replicate 32 0)
    (List.replicate 32 0) (List.replicate 32 0) liveShadowDir
    (List.replicate 33 1) (List.replicate 32 2) [5]
    (List.replicate 33 3) (List.replicate 32 4) [6]
    (List.replicate 32 0) (List.replicate 32 0)
    (by decide) (by decide) (by decide) (by decide) rfl (by decide) rfl
    (by decide) rfl (by decide) rfl (by decide) rfl (by decide) rfl
    (by decide) rfl rfl rfl rfl rfl rfl rfl

/-- Counterexample to C3 as stated: on a concrete account with a staged
shadow triple, COMMIT succeeds and an immediate UNDO also succeeds and
restores the pre-commit state — but that pre-commit state contains the
shadow triple, so after the UNDO the shadow file `new` is present
(holding the pre-commit shadow key), contradicting the claim's "after
the UNDO no shadow files are present". -/
theorem C3_counterexample :
    (commit_undo 1 evalConst sigOkAll nonce32 sig64 (some liveShadowDir)
        msg65 .nw .od).out = .ok ∧
    (commit_undo 1 evalConst sigOkAll nonce32 sig64
        (commit_undo 1 evalConst sigOkAll nonce32 sig64
          (some liveShadowDir) msg65 .nw .od).st msg65 .od .nw).out = .ok ∧
    ((commit_undo 1 evalConst sigOkAll nonce32 sig64
        (commit_undo 1 evalConst sigOkAll nonce32 sig64
          (some liveShadowDir) msg65 .nw .od).st msg65 .od .nw).st.map
        AccountDir.keyNew) = some (some (List.replicate 33 3)) ∧
    some (List.replicate 33 3) ≠ (none : Option Bytes) := by
  refine ⟨by decide, by decide, by decide, by decide⟩

/-- C10: COMMIT and UNDO load all six required blobs before performing
any write: when any of the six files (live `key`/`pub`/`rules` and the
corresponding shadow triple) is absent, the operation terminates
without modifying the account's on-disk state, and not with `ok`. -/
theorem C10_loads_before_writes (ruleSize : Nat)
    (eval : Bytes → Bytes → Option Bytes)
    (sigOk : Bytes → Bytes → Bytes → Bool) (nonce sig : Bytes)
    (st : Option AccountDir) (msg : Bytes) (rNew rOld : Role)
    (h : lookupFile st (roleRules rNew) = none ∨
         lookupFile st AccountDir.rules = none ∨
         lookupFile st (rolePub rNew) = none ∨
         lookupFile st AccountDir.pub = none ∨
         lookupFile st (roleKey rNew) = none ∨
         lookupFile st AccountDir.key = none) :
    (commit_undo ruleSize eval sigOk nonce sig st msg rNew rOld).st = st ∧
    (commit_undo ruleSize eval sigOk nonce sig st msg rNew rOld).out ≠
      .ok := by
  simp only [commit_undo]
  split_ifs with hm3 hstn hcond
  · exact ⟨rfl, fun h2 => (nomatch h2)⟩
  · exact ⟨rfl, fun h2 => (nomatch h2)⟩
  · exact ⟨rfl, hcond⟩
  · repeat' split
    all_goals first
      | exact ⟨rfl, fun h2 => (nomatch h2)⟩
      | (exfalso
         rcases h with h | h | h | h | h | h <;>
           simp_all [load_blob, lookupFile])

/-- C1: the round-trip behaviour of CREATE followed by GET.  The DKG
variant round-trips: after a successful CREATE_DKG replying
`xi[0] ‖ beta`, a GET with the same `alpha` succeeds and replies
`xi[0] ‖ beta ‖ rules` — the beta and index byte match.  The plain
CREATE, however, stores the raw 32-byte seed `k` as `key`, while GET
loads `key` demanding 33 bytes: `load_blob` raises `ValueError`, the
connection dies with nothing sent, and no beta is ever returned. -/
theorem C1_create_get_roundtrip (ruleSize : Nat)
    (eval : Bytes → Bytes → Option Bytes)
    (sigOk : Bytes → Bytes → Bytes → Bool)
    (xi k beta betaD authMsg signed_id newPk pfx sb : Bytes)
    (hst : Option AccountDir) (o ix tt nn og o2 : Nat) (id alpha : Bytes)
    (hid : id.length = 32) (halpha : alpha.length = 32)
    (hxi : xi.length = 33) (hk : k.length = 32)
    (hauth : authMsg.length = 32 + ruleSize + 64)
    (hsig : sigOk (authMsg.drop (32 + ruleSize)) (authMsg.take (32 + ruleSize))
      (authMsg.take 32) = true)
    (hsid : signed_id.length = 96) (hzero : (signed_id.take 32).sum = 0)
    (hevalD : eval (xi.drop 1) alpha = some betaD)
    (heval : eval k alpha = some beta) :
    ((create_dkg ruleSize eval sigOk xi (o :: ix :: tt :: nn :: (id ++ alpha))
        authMsg signed_id newPk pfx sb none hst).out = .ok ∧
     (create_dkg ruleSize eval sigOk xi (o :: ix :: tt :: nn :: (id ++ alpha))
        authMsg signed_id newPk pfx sb none hst).sent.head? =
       some (xi.take 1 ++ betaD) ∧
     get ruleSize eval
       (create_dkg ruleSize eval sigOk xi (o :: ix :: tt :: nn :: (id ++ alpha))
          authMsg signed_id newPk pfx sb none hst).st
       (og :: (id ++ alpha)) =
       ⟨.ok,
        some { emptyDir with
                 key := some xi,
                 pub := some (authMsg.take 32),
                 rules := some ((authMsg.take (32 + ruleSize)).drop 32) },
        [xi.take 1 ++ betaD ++ (authMsg.take (32 + ruleSize)).drop 32]⟩) ∧
    ((create ruleSize eval sigOk k (o2 :: (id ++ alpha))
        authMsg signed_id newPk pfx sb none hst).out = .ok ∧
     (create ruleSize eval sigOk k (o2 :: (id ++ alpha))
        authMsg signed_id newPk pfx sb none hst).sent.head? = some beta ∧
     get ruleSize eval
       (create ruleSize eval sigOk k (o2 :: (id ++ alpha))
          authMsg signed_id newPk pfx sb none hst).st
       (og :: (id ++ alpha)) =
       ⟨.exn,
        some { emptyDir with
                 key := some k,
                 pub := some (authMsg.take 32),
                 rules := some ((authMsg.take (32 + ruleSize)).drop 32) },
        []⟩) := by
  have htake : alpha.take 32 = alpha := List.take_of_length_le (le_of_eq halpha)
  have hlen68 : (o :: ix :: tt :: nn :: (id ++ alpha)).length = 68 := by
    simp [hid, halpha]
  have hlen65 : (o2 :: (id ++ alpha)).length = 65 := by
    simp [hid, halpha]
  have hbody : (authMsg.take (32 + ruleSize)).length = 32 + ruleSize := by
    simp [List.length_take, hauth]
  have hrules : ((authMsg.take (32 + ruleSize)).drop 32).length = ruleSize := by
    simp [List.length_drop, hbody]
  have hub : update_blob sigOk hst signed_id newPk pfx sb =
      ⟨.ok, hst, []⟩ := by
    unfold update_blob
    rw [if_neg (by omega), if_pos hzero]
  have hvb : verify_blob sigOk authMsg (authMsg.take 32) =
      some (authMsg.take (32 + ruleSize)) := by
    unfold verify_blob
    rw [hauth]
    simp only [show 32 + ruleSize + 64 - 64 = 32 + ruleSize from rfl]
    rw [if_pos hsig]
  have hdkg : create_dkg ruleSize eval sigOk xi
      (o :: ix :: tt :: nn :: (id ++ alpha)) authMsg signed_id newPk pfx sb
      none hst =
      ⟨.ok,
       some { emptyDir with
                key := some xi,
                pub := some (authMsg.take 32),
                rules := some ((authMsg.take (32 + ruleSize)).drop 32) },
       hst, [xi.take 1 ++ betaD, okMsg]⟩ := by
    simp only [create_dkg, pop, hlen68, List.drop_succ_cons, List.drop_zero,
      List.drop_left' hid, htake, hevalD, hauth, hvb, hub]
    simp
  have hcr : create ruleSize eval sigOk k (o2 :: (id ++ alpha)) authMsg
      signed_id newPk pfx sb none hst =
      ⟨.ok,
       some { emptyDir with
                key := some k,
                pub := some (authMsg.take 32),
                rules := some ((authMsg.take (32 + ruleSize)).drop 32) },
       hst, [beta, okMsg]⟩ := by
    simp only [create, pop, hlen65, List.drop_succ_cons, List.drop_zero,
      List.drop_left' hid, htake, heval, hauth, hvb, hub]
    simp
  refine ⟨⟨by rw [hdkg], by rw [hdkg]; rfl, ?_⟩,
          ⟨by rw [hcr], by rw [hcr]; rfl, ?_⟩⟩
  · rw [hdkg]
    have hxi' : xi.tail.length = 32 := by
      rw [List.length_tail, hxi]
    have hevalD' : eval xi.tail alpha = some betaD := by
      rwa [← List.drop_one]
    simp only [get, pop, List.drop_succ_cons, List.drop_zero,
      List.drop_left' hid, htake,
      List.drop_eq_nil_of_le (le_of_eq halpha)]
    rw [if_neg (by simp)]
    simp only [load_blob, lookupFile, hxi, hrules, hevalD, hevalD']
    simp [hevalD, hevalD']
  · rw [hcr]
    simp only [get, pop, List.drop_succ_cons, List.drop_zero,
      List.drop_left' hid, htake,
      List.drop_eq_nil_of_le (le_of_eq halpha)]
    rw [if_neg (by simp)]
    simp only [load_blob, lookupFile, hk]
    simp

/-- Witness for C1 at fully concrete inputs. -/
theorem C1_create_get_roundtrip_witness :
    ((create_dkg 1 evalConst sigOkAll (List.replicate 33 7)
        (240 :: 1 :: 2 :: 3 :: (List.replicate 32 0 ++ List.replicate 32 0))
        (List.replicate 97 7) (List.replicate 96 0) (List.replicate 32 9)
        [0, 2] ([8, 8] ++ List.replicate 64 0) none none).out = .ok ∧
     (create_dkg 1 evalConst sigOkAll (List.replicate 33 7)
        (240 :: 1 :: 2 :: 3 :: (List.replicate 32 0 ++ List.replicate 32 0))
        (List.replicate 97 7) (List.replicate 96 0) (List.replicate 32 9)
        [0, 2] ([8, 8] ++ List.replicate 64 0) none none).sent.head? =
       some ((List.replicate 33 7).take 1 ++ List.replicate 32 0) ∧
     get 1 evalConst
       (create_dkg 1 evalConst sigOkAll (List.replicate 33 7)
          (240 :: 1 :: 2 :: 3 :: (List.replicate 32 0 ++ List.replicate 32 0))
          (List.replicate 97 7) (List.replicate 96 0) (List.replicate 32 9)
          [0, 2] ([8, 8] ++ List.replicate 64 0) none none).st
       (102 :: (List.replicate 32 0 ++ List.replicate 32 0)) =
       ⟨.ok,
        some { emptyDir with
                 key := some (List.replicate 33 7),
                 pub := some ((List.replicate 97 7).take 32),
                 rules := some (((List.replicate 97 7).take (32 + 1)).drop 32) },
        [(List.replicate 33 7).take 1 ++ List.replicate 32 0 ++
         ((List.replicate 97 7).take (32 + 1)).drop 32]⟩) ∧
    ((create 1 evalConst sigOkAll (List.replicate 32 5)
        (0 :: (List.replicate 32 0 ++ List.replicate 32 0))
        (List.replicate 97 7) (List.replicate 96 0) (List.replicate 32 9)
        [0, 2] ([8, 8] ++ List.replicate 64 0) none none).out = .ok ∧
     (create 1 evalConst sigOkAll (List.replicate 32 5)
        (0 :: (List.replicate 32 0 ++ List.replicate 32 0))
        (List.replicate 97 7) (List.replicate 96 0) (List.replicate 32 9)
        [0, 2] ([8, 8] ++ List.replicate 64 0) none none).sent.head? =
       some (List.replicate 32 0) ∧
     get 1 evalConst
       (create 1 evalConst sigOkAll (List.replicate 32 5)
          (0 :: (List.replicate 32 0 ++ List.replicate 32 0))
          (List.replicate 97 7) (List.replicate 96 0) (List.replicate 32 9)
          [0, 2] ([8, 8] ++ List.replicate 64 0) none none).st
       (102 :: (List.replicate 32 0 ++ List.replicate 32 0)) =
       ⟨.exn,
        some { emptyDir with
                 key := some (List.replicate 32 5),
                 pub := some ((List.replicate 97 7).take 32),
                 rules := some (((List.replicate 97 7).take (32 + 1)).drop 32) },
        []⟩) :=
  C1_create_get_roundtrip 1 evalConst sigOkAll (List.replicate 33 7)
    (List.replicate 32 5) (List.replicate 32 0) (List.replicate 32 0)
    (List.replicate 97 7) (List.replicate 96 0) (List.replicate 32 9)
    [0, 2] ([8, 8] ++ List.replicate 64 0) none 240 1 2 3 102 0
    (List.replicate 32 0) (List.replicate 32 0)
    (by decide) (by decide) (by decide) (by decide) (by decide) (by decide)
    (by decide) (by decide) rfl rfl

/-- C2 (amended): what each operation leaves in the account directory.
A directory made by plain `create` holds `key` (the raw 32-byte seed),
`pub` (32 bytes) and `rules` (RULE_SIZE bytes); one made by
`create_dkg` holds the same with a 33-byte `key`; a successful
commit/undo keeps the live triple present and well-sized
(33/32/RULE_SIZE); `delete` removes the directory — but the host-blob
enrolment path of `update_blob` creates a directory holding only `pub`
and `blob`, so directory existence does not imply that `key` and
`rules` are present: the claimed equivalence fails, as does the 33-byte
key size for plain create. -/
theorem C2_directory_contents (ruleSize : Nat)
    (eval : Bytes → Bytes → Option Bytes)
    (sigOk : Bytes → Bytes → Bytes → Bool)
    (xi k beta betaD authMsg signed_id newPk pfx sb nonce sig : Bytes)
    (hst : Option AccountDir) (o ix tt nn o2 o3 : Nat) (id alpha : Bytes)
    (d dd : AccountDir) (ck pk rl nk npk nrl ce pk2 : Bytes)
    (hid : id.length = 32) (halpha : alpha.length = 32)
    (hxi : xi.length = 33) (hk : k.length = 32)
    (hauth : authMsg.length = 32 + ruleSize + 64)
    (hsig : sigOk (authMsg.drop (32 + ruleSize)) (authMsg.take (32 + ruleSize))
      (authMsg.take 32) = true)
    (hsid : signed_id.length = 96) (hzero : (signed_id.take 32).sum = 0)
    (hevalD : eval (xi.drop 1) alpha = some betaD)
    (heval : eval k alpha = some beta)
    (hck : d.key = some ck) (hckl : ck.length = 33)
    (hpk : d.pub = some pk) (hpkl : pk.length = 32)
    (hrl : d.rules = some rl) (hrll : rl.length = ruleSize)
    (hnk : d.keyNew = some nk) (hnkl : nk.length = 33)
    (hnpk : d.pubNew = some npk) (hnpkl : npk.length = 32)
    (hnrl : d.rulesNew = some nrl) (hnrll : nrl.length = ruleSize)
    (hevalC : eval (ck.drop 1) alpha = some ce)
    (hsigC : sigOk sig nonce pk = true)
    (hdpub : dd.pub = some pk2) (hdpkl : pk2.length = 32)
    (hdkey : dd.key = none)
    (hsigDel : sigOk sig nonce pk2 = true) :
    (create ruleSize eval sigOk k (o2 :: (id ++ alpha)) authMsg signed_id
        newPk pfx sb none hst =
      ⟨.ok,
       some { emptyDir with
                key := some k,
                pub := some (authMsg.take 32),
                rules := some ((authMsg.take (32 + ruleSize)).drop 32) },
       hst, [beta, okMsg]⟩ ∧
     k.length = 32 ∧
     (authMsg.take 32).length = 32 ∧
     ((authMsg.take (32 + ruleSize)).drop 32).length = ruleSize) ∧
    (create_dkg ruleSize eval sigOk xi (o :: ix :: tt :: nn :: (id ++ alpha))
        authMsg signed_id newPk pfx sb none hst =
      ⟨.ok,
       some { emptyDir with
                key := some xi,
                pub := some (authMsg.take 32),
                rules := some ((authMsg.take (32 + ruleSize)).drop 32) },
       hst, [xi.take 1 ++ betaD, okMsg]⟩ ∧
     xi.length = 33) ∧
    (commit_undo ruleSize eval sigOk nonce sig (some d)
        (o3 :: (id ++ alpha)) .nw .od =
      ⟨.ok,
       some { d with key := some nk, pub := some npk, rules := some nrl,
                     keyOld := some ck, pubOld := some pk,
                     rulesOld := some rl,
                     keyNew := none, pubNew := none, rulesNew := none },
       [ck.take 1 ++ ce ++ nonce, authMarker, okMsg]⟩) ∧
    (delete eval sigOk nonce sig signed_id newPk pfx sb (some dd) hst
        (o3 :: (id ++ alpha)) =
      ⟨.ok, none, hst, [nonce, authMarker, okMsg]⟩) := by
  have htake : alpha.take 32 = alpha := List.take_of_length_le (le_of_eq halpha)
  have hlen68 : (o :: ix :: tt :: nn :: (id ++ alpha)).length = 68 := by
    simp [hid, halpha]
  have hlen65 : (o2 :: (id ++ alpha)).length = 65 := by
    simp [hid, halpha]
  have hbody : (authMsg.take (32 + ruleSize)).length = 32 + ruleSize := by
    simp [List.length_take, hauth]
  have hub : update_blob sigOk hst signed_id newPk pfx sb =
      ⟨.ok, hst, []⟩ := by
    unfold update_blob
    rw [if_neg (by omega), if_pos hzero]
  have hvb : verify_blob sigOk authMsg (authMsg.take 32) =
      some (authMsg.take (32 + ruleSize)) := by
    unfold verify_blob
    rw [hauth]
    simp only [show 32 + ruleSize + 64 - 64 = 32 + ruleSize from rfl]
    rw [if_pos hsig]
  refine ⟨⟨?_, hk, by simp [List.length_take, hauth], by simp [hbody]⟩,
          ⟨?_, hxi⟩, ?_, ?_⟩
  · simp only [create, pop, hlen65, List.drop_succ_cons, List.drop_zero,
      List.drop_left' hid, htake, heval, hauth, hvb, hub]
    simp
  · simp only [create_dkg, pop, hlen68, List.drop_succ_cons, List.drop_zero,
      List.drop_left' hid, htake, hevalD, hauth, hvb, hub]
    simp
  · exact commit_rotate ruleSize eval sigOk nonce sig o3 id alpha d ck pk rl
      nk npk nrl ce hid halpha hck hckl hpk hpkl hrl hrll hnk hnkl hnpk
      hnpkl hnrl hnrll hevalC hsigC
  · have hA : auth (some dd) eval sigOk alpha nonce sig =
        (.ok, [nonce, authMarker]) := by
      simp only [auth, load_blob, lookupFile, hdpub, hdpkl, hdkey, hsigDel]
      simp [hsigDel]
    simp only [delete, pop, List.drop_succ_cons, List.drop_zero,
      List.drop_left' hid, htake,
      List.drop_eq_nil_of_le (le_of_eq halpha)]
    rw [if_neg (by simp)]
    simp [hA, hub]

/-- Witness for C2 at fully concrete inputs. -/
theorem C2_directory_contents_witness :
    (create 1 evalConst sigOkAll (List.replicate 32 5)
        (0 :: (List.replicate 32 0 ++ List.replicate 32 0))
        (List.replicate 97 7) (List.replicate 96 0) (List.replicate 32 9)
        [0, 2] ([8, 8] ++ List.replicate 64 0) none none =
      ⟨.ok,
       some { emptyDir with
                key := some (List.replicate 32 5),
                pub := some ((List.replicate 97 7).take 32),
                rules := some (((List.replicate 97 7).take (32 + 1)).drop 32) },
       none, [List.replicate 32 0, okMsg]⟩ ∧
     (List.replicate 32 5).length = 32 ∧
     ((List.replicate 97 7).take 32).length = 32 ∧
     (((List.replicate 97 7).take (32 + 1)).drop 32).length = 1) ∧
    (create_dkg 1 evalConst sigOkAll (List.replicate 33 7)
        (240 :: 1 :: 2 :: 3 :: (List.replicate 32 0 ++ List.replicate 32 0))
        (List.replicate 97 7) (List.replicate 96 0) (List.replicate 32 9)
        [0, 2] ([8, 8] ++ List.replicate 64 0) none none =
      ⟨.ok,
       some { emptyDir with
                key := some (List.replicate 33 7),
                pub := some ((List.replicate 97 7).take 32),
                rules := some (((List.replicate 97 7).take (32 + 1)).drop 32) },
       none, [(List.replicate 33 7).take 1 ++ List.replicate 32 0, okMsg]⟩ ∧
     (List.replicate 33 7).length = 33) ∧
    (commit_undo 1 evalConst sigOkAll nonce32 sig64 (some liveShadowDir)
        (153 :: (List.replicate 32 0 ++ List.replicate 32 0)) .nw .od =
      ⟨.ok,
       some { liveShadowDir with
                key := some (List.replicate 33 3),
                pub := some (List.replicate 32 4), rules := some [6],
                keyOld := some (List.replicate 33 1),
                pubOld := some (List.replicate 32 2), rulesOld := some [5],
                keyNew := none, pubNew := none, rulesNew := none },
       [(List.replicate 33 1).take 1 ++ List.replicate 32 0 ++ nonce32,
        authMarker, okMsg]⟩) ∧
    (delete evalConst sigOkAll nonce32 sig64 (List.replicate 96 0)
        (List.replicate 32 9) [0, 2] ([8, 8] ++ List.replicate 64 0)
        (some { emptyDir with pub := some (List.replicate 32 2) }) none
        (153 :: (List.replicate 32 0 ++ List.replicate 32 0)) =
      ⟨.ok, none, none, [nonce32, authMarker, okMsg]⟩) :=
  C2_directory_contents 1 evalConst sigOkAll (List.replicate 33 7)
    (List.replicate 32 5) (List.replicate 32 0) (List.replicate 32 0)
    (List.replicate 97 7) (List.replicate 96 0)
    (List.replicate 32 9) [0, 2] ([8, 8] ++ List.replicate 64 0)
    nonce32 sig64 none 240 1 2 3 0 153
    (List.replicate 32 0) (List.replicate 32 0) liveShadowDir
    { emptyDir with pub := some (List.replicate 32 2) }
    (List.replicate 33 1) (List.replicate 32 2) [5]
    (List.replicate 33 3) (List.replicate 32 4) [6]
    (List.replicate 32 0) (List.replicate 32 2)
    (by decide) (by decide) (by decide) (by decide) (by decide) (by decide)
    (by decide) (by decide) rfl rfl rfl (by decide) rfl
    (by decide) rfl (by decide) rfl (by decide) rfl (by decide) rfl
    (by decide) rfl rfl rfl (by decide) rfl rfl

/-- Counterexample to C2 as stated: the host-blob enrolment path of
`update_blob` creates an account directory that holds only `pub` and
`blob` — no `key`, no `rules` — so a directory exists while the claimed
equivalence requires `key`, `pub` and `rules` all present and
well-sized. -/
theorem C2_counterexample :
    (update_blob sigOkAll none
        (List.replicate 31 0 ++ [1] ++ List.replicate 64 0)
        (List.replicate 32 9) [0, 2]
        ([8, 8] ++ List.replicate 64 0)).out = .ok ∧
    (update_blob sigOkAll none
        (List.replicate 31 0 ++ [1] ++ List.replicate 64 0)
        (List.replicate 32 9) [0, 2]
        ([8, 8] ++ List.replicate 64 0)).st ≠ none ∧
    ((update_blob sigOkAll none
        (List.replicate 31 0 ++ [1] ++ List.replicate 64 0)
        (List.replicate 32 9) [0, 2]
        ([8, 8] ++ List.replicate 64 0)).st.map AccountDir.key) =
      some none ∧
    ((update_blob sigOkAll none
        (List.replicate 31 0 ++ [1] ++ List.replicate 64 0)
        (List.replicate 32 9) [0, 2]
        ([8, 8] ++ List.replicate 64 0)).st.map AccountDir.rules) =
      some none := by
  refine ⟨by decide, by decide, by decide, by decide⟩

/-- C4 (amended): in CHALLENGE_VERIFY the Equihash seed passed to
`equihash.verify` is the full 42 bytes read — the 10-byte challenge
`n ‖ k ‖ ts` *plus the 32-byte MAC* — concatenated with the request:
once the MAC, staleness and solution-size checks pass, a solution is
accepted exactly when it verifies against `challenge[42] ++ req`, not
against `challenge[:10] ++ req`. -/
theorem C4_seed_includes_mac (grace : Nat) (mac : Bytes → Bytes → Bytes)
    (ehVerify : Nat → Nat → Bytes → Bytes → Bool) (solsize : Nat → Nat → Nat)
    (now : Int) (keyv challenge reqType payload solution : Bytes) (tmo : Nat)
    (hch : challenge.length = 42)
    (hp1 : ¬(reqType.take 1 = READop ∧ payload.length ≠ 32))
    (hp2 : ¬(reqType.take 1 ≠ READop ∧ payload.length ≠ 64))
    (hkey : keyv.length = 32)
    (hmac : mac keyv ((reqType ++ payload) ++ challenge.take 10) =
      (challenge.drop 10).take 32)
    (htmo : RL_Timeouts (challenge.getD 0 0) (challenge.getD 1 0) =
      some tmo)
    (hfresh : ¬(now - ((tmo + grace : Nat) : Int) >
      ((leDec ((challenge.drop 2).take 8) : Nat) : Int)))
    (hsol : solution.length =
      solsize (challenge.getD 0 0) (challenge.getD 1 0)) :
    verify_challenge grace mac ehVerify solsize now (some keyv) challenge
        reqType payload solution =
      if ehVerify (challenge.getD 0 0) (challenge.getD 1 0)
          (challenge ++ (reqType ++ payload)) solution then
        ⟨.ok, [], some (challenge ++ (reqType ++ payload)), true,
         some (reqType ++ payload)⟩
      else
        ⟨.failed, [failMarker], some (challenge ++ (reqType ++ payload)),
         true, none⟩ := by
  rw [verify_challenge_reduces grace mac ehVerify solsize now keyv challenge
    reqType payload solution tmo hch hp1 hp2 hkey hmac htmo]
  rw [if_neg hfresh, if_neg (by simp [hsol])]

/-- Witness for C4 at fully concrete inputs. -/
theorem C4_seed_includes_mac_witness :
    verify_challenge 10 macZero ehAccept (fun _ _ => 0) 0
        (some (List.replicate 32 3)) chall42 READop
        (List.replicate 32 0) [] =
      if ehAccept (chall42.getD 0 0) (chall42.getD 1 0)
          (chall42 ++ (READop ++ List.replicate 32 0)) [] then
        ⟨.ok, [], some (chall42 ++ (READop ++ List.replicate 32 0)), true,
         some (READop ++ List.replicate 32 0)⟩
      else
        ⟨.failed, [failMarker],
         some (chall42 ++ (READop ++ List.replicate 32 0)), true, none⟩ :=
  C4_seed_includes_mac 10 macZero ehAccept (fun _ _ => 0) 0
    (List.replicate 32 3) chall42 READop (List.replicate 32 0) [] 1
    (by decide) (by decide) (by decide) (by decide) (by decide) (by decide)
    (by decide) (by decide)

/-- Counterexample to C4 as stated: with a verifier that accepts exactly
the 43-byte seed `challenge[:10] ++ req` the claim describes, a
MAC-valid fresh request is rejected — the code verifies against the
42-byte challenge (signature included) concatenated with the request,
as the `seedUsed` component shows. -/
theorem C4_counterexample :
    ehSeed43 60 4 (chall42.take 10 ++ (READop ++ List.replicate 32 0)) [] =
      true ∧
    (verify_challenge 10 macZero ehSeed43 (fun _ _ => 0) 0
        (some (List.replicate 32 3)) chall42 READop
        (List.replicate 32 0) []).out = .failed ∧
    (verify_challenge 10 macZero ehSeed43 (fun _ _ => 0) 0
        (some (List.replicate 32 3)) chall42 READop
        (List.replicate 32 0) []).seedUsed =
      some (chall42 ++ (READop ++ List.replicate 32 0)) := by
  refine ⟨by decide, by decide, by decide⟩

/-- C8: CHALLENGE_VERIFY rejects a MAC-valid challenge with timestamp
`ts` exactly when `now − ts > timeout[(n,k)] + rl_gracetime`: at the
boundary the solution is accepted, one second past it the connection
fails before the solution is read. -/
theorem C8_staleness_boundary (grace : Nat) (mac : Bytes → Bytes → Bytes)
    (ehVerify : Nat → Nat → Bytes → Bytes → Bool) (solsize : Nat → Nat → Nat)
    (now : Int) (keyv challenge reqType payload solution : Bytes) (tmo : Nat)
    (hch : challenge.length = 42)
    (hp1 : ¬(reqType.take 1 = READop ∧ payload.length ≠ 32))
    (hp2 : ¬(reqType.take 1 ≠ READop ∧ payload.length ≠ 64))
    (hkey : keyv.length = 32)
    (hmac : mac keyv ((reqType ++ payload) ++ challenge.take 10) =
      (challenge.drop 10).take 32)
    (htmo : RL_Timeouts (challenge.getD 0 0) (challenge.getD 1 0) =
      some tmo)
    (hsol : solution.length =
      solsize (challenge.getD 0 0) (challenge.getD 1 0))
    (hehv : ehVerify (challenge.getD 0 0) (challenge.getD 1 0)
      (challenge ++ (reqType ++ payload)) solution = true) :
    (now - ((leDec ((challenge.drop 2).take 8) : Nat) : Int) >
        ((tmo + grace : Nat) : Int) →
      (verify_challenge grace mac ehVerify solsize now (some keyv)
        challenge reqType payload solution).out = .failed ∧
      (verify_challenge grace mac ehVerify solsize now (some keyv)
        challenge reqType payload solution).solRead = false) ∧
    (now - ((leDec ((challenge.drop 2).take 8) : Nat) : Int) ≤
        ((tmo + grace : Nat) : Int) →
      (verify_challenge grace mac ehVerify solsize now (some keyv)
        challenge reqType payload solution).out = .ok ∧
      (verify_challenge grace mac ehVerify solsize now (some keyv)
        challenge reqType payload solution).handled =
        some (reqType ++ payload)) := by
  rw [verify_challenge_reduces grace mac ehVerify solsize now keyv challenge
    reqType payload solution tmo hch hp1 hp2 hkey hmac htmo]
  constructor
  · intro h
    rw [if_pos (by omega)]
    exact ⟨rfl, rfl⟩
  · intro h
    rw [if_neg (by omega), if_neg (by simp [hsol]), if_pos hehv]
    exact ⟨rfl, rfl⟩

/-- Witness for C8: with `timeout[(60,4)] = 1` and `rl_gracetime = 10`,
a solution presented at `now − ts = 11`, the boundary, is accepted. -/
theorem C8_staleness_boundary_witness :
    (11 - ((leDec ((chall42.drop 2).take 8) : Nat) : Int) >
        ((1 + 10 : Nat) : Int) →
      (verify_challenge 10 macZero ehAccept (fun _ _ => 0) 11
        (some (List.replicate 32 3)) chall42 READop
        (List.replicate 32 0) []).out = .failed ∧
      (verify_challenge 10 macZero ehAccept (fun _ _ => 0) 11
        (some (List.replicate 32 3)) chall42 READop
        (List.replicate 32 0) []).solRead = false) ∧
    (11 - ((leDec ((chall42.drop 2).take 8) : Nat) : Int) ≤
        ((1 + 10 : Nat) : Int) →
      (verify_challenge 10 macZero ehAccept (fun _ _ => 0) 11
        (some (List.replicate 32 3)) chall42 READop
        (List.replicate 32 0) []).out = .ok ∧
      (verify_challenge 10 macZero ehAccept (fun _ _ => 0) 11
        (some (List.replicate 32 3)) chall42 READop
        (List.replicate 32 0) []).handled =
        some (READop ++ List.replicate 32 0)) :=
  C8_staleness_boundary 10 macZero ehAccept (fun _ _ => 0) 11
    (List.replicate 32 3) chall42 READop (List.replicate 32 0) [] 1
    (by decide) (by decide) (by decide) (by decide) (by decide) (by decide)
    (by decide) (by decide)

/-- C9 (amended): for every error kind handled through `fail()` —
malformed-framing, wrong-length, bad-signature, unknown-account,
duplicate-account, missing-shadow, stale-challenge, bad-mac,
bad-solution, oprf-eval-failure — the worker's last message on the
connection is the literal 6-byte sequence `\x00\x04fail`; but
io-failure and storage-corruption raise uncaught exceptions
(`ValueError` from `load_blob`'s size check, `OSError` from file I/O)
that tear the connection down *without* sending the marker.  Stated
over every embedded operation: whenever the outcome is `failed` the
sent trace ends with the marker, and whenever the outcome is the
uncaught-exception one the marker was never sent. -/
theorem C9_fail_marker (eval : Bytes → Bytes → Option Bytes)
    (nonce : Bytes)
    (heval : ∀ kk aa bb, eval kk aa = some bb → bb.length = 32)
    (hnonce : nonce.length = 32) :
    (∀ (ruleSize : Nat) (st : Option AccountDir) (msg : Bytes),
      ((get ruleSize eval st msg).out = .failed →
        (get ruleSize eval st msg).sent.getLast? = some failMarker) ∧
      ((get ruleSize eval st msg).out = .exn →
        failMarker ∉ (get ruleSize eval st msg).sent)) ∧
    (∀ (st : Option AccountDir) (sigOk : Bytes → Bytes → Bytes → Bool)
        (alpha sig : Bytes),
      ((auth st eval sigOk alpha nonce sig).1 = .failed →
        (auth st eval sigOk alpha nonce sig).2.getLast? =
          some failMarker) ∧
      ((auth st eval sigOk alpha nonce sig).1 = .exn →
        failMarker ∉ (auth st eval sigOk alpha nonce sig).2) ∧
      ((auth st eval sigOk alpha nonce sig).1 = .ok →
        failMarker ∉ (auth st eval sigOk alpha nonce sig).2)) ∧
    (∀ (sigOk : Bytes → Bytes → Bytes → Bool) (st : Option AccountDir)
        (sid npk pfx sb : Bytes),
      ((update_blob sigOk st sid npk pfx sb).out = .failed →
        (update_blob sigOk st sid npk pfx sb).sent.getLast? =
          some failMarker) ∧
      (update_blob sigOk st sid npk pfx sb).out ≠ .exn) ∧
    (∀ (ruleSize : Nat) (sigOk : Bytes → Bytes → Bytes → Bool)
        (k msg authMsg sid npk pfx sb : Bytes)
        (st hst : Option AccountDir),
      ((create ruleSize eval sigOk k msg authMsg sid npk pfx sb st
          hst).out = .failed →
        (create ruleSize eval sigOk k msg authMsg sid npk pfx sb st
          hst).sent.getLast? = some failMarker) ∧
      (create ruleSize eval sigOk k msg authMsg sid npk pfx sb st
        hst).out ≠ .exn) ∧
    (∀ (ruleSize : Nat) (sigOk : Bytes → Bytes → Bytes → Bool)
        (xi msg authMsg sid npk pfx sb : Bytes)
        (st hst : Option AccountDir),
      ((create_dkg ruleSize eval sigOk xi msg authMsg sid npk pfx sb st
          hst).out = .failed →
        (create_dkg ruleSize eval sigOk xi msg authMsg sid npk pfx sb st
          hst).sent.getLast? = some failMarker) ∧
      (create_dkg ruleSize eval sigOk xi msg authMsg sid npk pfx sb st
        hst).out ≠ .exn) ∧
    (∀ (ruleSize : Nat) (sigOk : Bytes → Bytes → Bytes → Bool)
        (sig : Bytes) (st : Option AccountDir) (msg : Bytes)
        (rNew rOld : Role),
      ((commit_undo ruleSize eval sigOk nonce sig st msg rNew rOld).out =
          .failed →
        (commit_undo ruleSize eval sigOk nonce sig st msg rNew
          rOld).sent.getLast? = some failMarker) ∧
      ((commit_undo ruleSize eval sigOk nonce sig st msg rNew rOld).out =
          .exn →
        failMarker ∉
          (commit_undo ruleSize eval sigOk nonce sig st msg rNew
            rOld).sent)) ∧
    (∀ (sigOk : Bytes → Bytes → Bytes → Bool) (sig sid npk pfx sb : Bytes)
        (st hst : Option AccountDir) (msg : Bytes),
      ((delete eval sigOk nonce sig sid npk pfx sb st hst msg).out =
          .failed →
        (delete eval sigOk nonce sig sid npk pfx sb st hst
          msg).sent.getLast? = some failMarker) ∧
      ((delete eval sigOk nonce sig sid npk pfx sb st hst msg).out =
          .exn →
        failMarker ∉
          (delete eval sigOk nonce sig sid npk pfx sb st hst msg).sent)) ∧
    (∀ (grace : Nat) (mac : Bytes → Bytes → Bytes)
        (ehVerify : Nat → Nat → Bytes → Bytes → Bool)
        (solsize : Nat → Nat → Nat) (now : Int) (macKey : Option Bytes)
        (challenge reqType payload solution : Bytes),
      ((verify_challenge grace mac ehVerify solsize now macKey challenge
          reqType payload solution).out = .failed →
        (verify_challenge grace mac ehVerify solsize now macKey challenge
          reqType payload solution).sent.getLast? = some failMarker) ∧
      ((verify_challenge grace mac ehVerify solsize now macKey challenge
          reqType payload solution).out = .exn →
        failMarker ∉
          (verify_challenge grace mac ehVerify solsize now macKey
            challenge reqType payload solution).sent)) ∧
    (∀ (rlDecay rlThreshold : Nat) (now : Int)
        (mac : Bytes → Bytes → Bytes) (macKey : Option Bytes)
        (randKey : Bytes) (st : Option AccountDir) (req : Bytes),
      ((create_challenge rlDecay rlThreshold now mac macKey randKey st
          req).out = .failed →
        (create_challenge rlDecay rlThreshold now mac macKey randKey st
          req).sent.getLast? = some failMarker) ∧
      ((create_challenge rlDecay rlThreshold now mac macKey randKey st
          req).out = .exn →
        failMarker ∉
          (create_challenge rlDecay rlThreshold now mac macKey randKey
            st req).sent)) :=
  ⟨fun ruleSize st msg => get_marker ruleSize eval st msg,
   fun st sigOk alpha sig =>
     auth_marker st eval sigOk alpha nonce sig heval hnonce,
   fun sigOk st sid npk pfx sb => update_blob_marker sigOk st sid npk pfx sb,
   fun ruleSize sigOk k msg authMsg sid npk pfx sb st hst =>
     create_marker ruleSize eval sigOk k msg authMsg sid npk pfx sb st hst,
   fun ruleSize sigOk xi msg authMsg sid npk pfx sb st hst =>
     create_dkg_marker ruleSize eval sigOk xi msg authMsg sid npk pfx sb
       st hst,
   fun ruleSize sigOk sig st msg rNew rOld =>
     commit_undo_marker ruleSize eval sigOk nonce sig st msg rNew rOld
       heval hnonce,
   fun sigOk sig sid npk pfx sb st hst msg =>
     delete_marker eval sigOk nonce sig sid npk pfx sb st hst msg heval
       hnonce,
   fun grace mac ehVerify solsize now macKey challenge reqType payload
       solution =>
     verify_challenge_marker grace mac ehVerify solsize now macKey
       challenge reqType payload solution,
   fun rlDecay rlThreshold now mac macKey randKey st req =>
     create_challenge_marker rlDecay rlThreshold now mac macKey randKey
       st req⟩


/-- Witness for C9 at a concrete OPRF stand-in and nonce. -/
theorem C9_fail_marker_witness :
    (∀ (ruleSize : Nat) (st : Option AccountDir) (msg : Bytes),
      ((get ruleSize evalConst st msg).out = .failed →
        (get ruleSize evalConst st msg).sent.getLast? = some failMarker) ∧
      ((get ruleSize evalConst st msg).out = .exn →
        failMarker ∉ (get ruleSize evalConst st msg).sent)) ∧
    (∀ (st : Option AccountDir) (sigOk : Bytes → Bytes → Bytes → Bool)
        (alpha sig : Bytes),
      ((auth st evalConst sigOk alpha nonce32 sig).1 = .failed →
        (auth st evalConst sigOk alpha nonce32 sig).2.getLast? =
          some failMarker) ∧
      ((auth st evalConst sigOk alpha nonce32 sig).1 = .exn →
        failMarker ∉ (auth st evalConst sigOk alpha nonce32 sig).2) ∧
      ((auth st evalConst sigOk alpha nonce32 sig).1 = .ok →
        failMarker ∉ (auth st evalConst sigOk alpha nonce32 sig).2)) ∧
    (∀ (sigOk : Bytes → Bytes → Bytes → Bool) (st : Option AccountDir)
        (sid npk pfx sb : Bytes),
      ((update_blob sigOk st sid npk pfx sb).out = .failed →
        (update_blob sigOk st sid npk pfx sb).sent.getLast? =
          some failMarker) ∧
      (update_blob sigOk st sid npk pfx sb).out ≠ .exn) ∧
    (∀ (ruleSize : Nat) (sigOk : Bytes → Bytes → Bytes → Bool)
        (k msg authMsg sid npk pfx sb : Bytes)
        (st hst : Option AccountDir),
      ((create ruleSize evalConst sigOk k msg authMsg sid npk pfx sb st
          hst).out = .failed →
        (create ruleSize evalConst sigOk k msg authMsg sid npk pfx sb st
          hst).sent.getLast? = some failMarker) ∧
      (create ruleSize evalConst sigOk k msg authMsg sid npk pfx sb st
        hst).out ≠ .exn) ∧
    (∀ (ruleSize : Nat) (sigOk : Bytes → Bytes → Bytes → Bool)
        (xi msg authMsg sid npk pfx sb : Bytes)
        (st hst : Option AccountDir),
      ((create_dkg ruleSize evalConst sigOk xi msg authMsg sid npk pfx sb st
          hst).out = .failed →
        (create_dkg ruleSize evalConst sigOk xi msg authMsg sid npk pfx sb st
          hst).sent.getLast? = some failMarker) ∧
      (create_dkg ruleSize evalConst sigOk xi msg authMsg sid npk pfx sb st
        hst).out ≠ .exn) ∧
    (∀ (ruleSize : Nat) (sigOk : Bytes → Bytes → Bytes → Bool)
        (sig : Bytes) (st : Option AccountDir) (msg : Bytes)
        (rNew rOld : Role),
      ((commit_undo ruleSize evalConst sigOk nonce32 sig st msg rNew rOld).out =
          .failed →
        (commit_undo ruleSize evalConst sigOk nonce32 sig st msg rNew
          rOld).sent.getLast? = some failMarker) ∧
      ((commit_undo ruleSize evalConst sigOk nonce32 sig st msg rNew rOld).out =
          .exn →
        failMarker ∉
          (commit_undo ruleSize evalConst sigOk nonce32 sig st msg rNew
            rOld).sent)) ∧
    (∀ (sigOk : Bytes → Bytes → Bytes → Bool) (sig sid npk pfx sb : Bytes)
        (st hst : Option AccountDir) (msg : Bytes),
      ((delete evalConst sigOk nonce32 sig sid npk pfx sb st hst msg).out =
          .failed →
        (delete evalConst sigOk nonce32 sig sid npk pfx sb st hst
          msg).sent.getLast? = some failMarker) ∧
      ((delete evalConst sigOk nonce32 sig sid npk pfx sb st hst msg).out =
          .exn →
        failMarker ∉
          (delete evalConst sigOk nonce32 sig sid npk pfx sb st hst msg).sent)) ∧
    (∀ (grace : Nat) (mac : Bytes → Bytes → Bytes)
        (ehVerify : Nat → Nat → Bytes → Bytes → Bool)
        (solsize : Nat → Nat → Nat) (now : Int) (macKey : Option Bytes)
        (challenge reqType payload solution : Bytes),
      ((verify_challenge grace mac ehVerify solsize now macKey challenge
          reqType payload solution).out = .failed →
        (verify_challenge grace mac ehVerify solsize now macKey challenge
          reqType payload solution).sent.getLast? = some failMarker) ∧
      ((verify_challenge grace mac ehVerify solsize now macKey challenge
          reqType payload solution).out = .exn →
        failMarker ∉
          (verify_challenge grace mac ehVerify solsize now macKey
            challenge reqType payload solution).sent)) ∧
    (∀ (rlDecay rlThreshold : Nat) (now : Int)
        (mac : Bytes → Bytes → Bytes) (macKey : Option Bytes)
        (randKey : Bytes) (st : Option AccountDir) (req : Bytes),
      ((create_challenge rlDecay rlThreshold now mac macKey randKey st
          req).out = .failed →
        (create_challenge rlDecay rlThreshold now mac macKey randKey st
          req).sent.getLast? = some failMarker) ∧
      ((create_challenge rlDecay rlThreshold now mac macKey randKey st
          req).out = .exn →
        failMarker ∉
          (create_challenge rlDecay rlThreshold now mac macKey randKey
            st req).sent)) :=
  C9_fail_marker evalConst nonce32
    (fun kk aa bb h => by
      simp only [evalConst, Option.some.injEq] at h
      rw [← h]
      rfl)
    (by decide)

/-- Counterexample to C9 as stated: a storage-corruption error — GET on
an account whose `key` file has 32 bytes instead of 33, exactly the
state plain `create` leaves behind — makes `load_blob` raise
`ValueError`: the connection dies with the uncaught-exception outcome
and *nothing* is sent, in particular not the `\x00\x04fail` marker the
claim requires for storage-corruption. -/
theorem C9_counterexample :
    (get 1 evalConst
      (some { emptyDir with key := some (List.replicate 32 5),
                            pub := some (List.replicate 32 2),
                            rules := some [5] })
      (102 :: (List.replicate 32 0 ++ List.replicate 32 0))).out = .exn ∧
    (get 1 evalConst
      (some { emptyDir with key := some (List.replicate 32 5),
                            pub := some (List.replicate 32 2),
                            rules := some [5] })
      (102 :: (List.replicate 32 0 ++ List.replicate 32 0))).sent = [] := by
  refine ⟨by decide, by decide⟩

/-- Witness for C10: on an account with only the live triple (shadow
absent), COMMIT leaves the state untouched and does not reply ok. -/
theorem C10_loads_before_writes_witness :
    (commit_undo 1 evalConst sigOkAll nonce32 sig64
      (some { emptyDir with key := some (List.replicate 33 1),
                            pub := some (List.replicate 32 2),
                            rules := some [5] }) msg65 .nw .od).st =
      some { emptyDir with key := some (List.replicate 33 1),
                           pub := some (List.replicate 32 2),
                           rules := some [5] } ∧
    (commit_undo 1 evalConst sigOkAll nonce32 sig64
      (some { emptyDir with key := some (List.replicate 33 1),
                            pub := some (List.replicate 32 2),
                            rules := some [5] }) msg65 .nw .od).out ≠
      .ok :=
  C10_loads_before_writes 1 evalConst sigOkAll nonce32 sig64
    (some { emptyDir with key := some (List.replicate 33 1),
                          pub := some (List.replicate 32 2),
                          rules := some [5] }) msg65 .nw .od
    (Or.inl rfl)

end PwdSphinx
